import Mathlib

/-!
# Verification of the conversa-relay core against its specification

Shallow embedding of the core components of the `conversa-relay` repository
(chat dispatch queue, outbox store-and-forward, session pool, terminal /
orchestrator handoff machinery, background task manager) together with
theorems settling the specification claims about them.

Conventions used throughout:
* JavaScript strings are modelled as Lean `String`; `null`/`undefined`
  values are modelled with `Option`.
* Asynchronous, cooperatively scheduled code is modelled either as a pure
  function (when the code runs without interference) or as a labelled
  transition system whose steps correspond to the atomic segments between
  `await` points.
* File-system state is modelled explicitly (which logical location holds a
  copy of an envelope); `fs.rename` is atomic, `fs.writeFile` followed by
  `fs.unlink` is two separate steps.
-/

set_option maxHeartbeats 1000000

namespace ConversaRelay

/-! ## Outbox common helpers (src/src/outbox/common.js) -/

namespace OutboxCommon

/-- The set `VALID_TYPES` of src/src/outbox/common.js. -/
def VALID_TYPES : List String := ["start", "progress", "final", "error", "info", "media"]

/-- JS `String(value || '')` for a possibly `null`/`undefined` string value. -/
def jsOrEmpty : Option String → String
| none => ""
| some s => s

/-- JS nullish coalescing `a ?? b`. -/
def jsCoalesce (a b : Option String) : Option String :=
match a with
| some v => some v
| none => b

/-- JS `String.prototype.trim()` (whitespace stripped from both ends),
implemented over the character list so that it evaluates by kernel
reduction. -/
def jsTrim (s : String) : String :=
  ((((s.toList).dropWhile Char.isWhitespace).reverse.dropWhile Char.isWhitespace).reverse).asString

/-- JS `String.prototype.toLowerCase()` (ASCII approximation, which is
exact on every string the claims touch). -/
def jsToLower (s : String) : String :=
  ((s.toList).map Char.toLower).asString

/-- `normalizeOutboxType` (src/src/outbox/common.js lines 46-51):
empty/missing becomes `progress`, a valid type is kept (after trim +
lower-casing), anything else becomes `info`. -/
def normalizeOutboxType (value : Option String) : String :=
  if jsToLower (jsTrim (jsOrEmpty value)) = "" then "progress"
  else if jsToLower (jsTrim (jsOrEmpty value)) ∈ VALID_TYPES then
    jsToLower (jsTrim (jsOrEmpty value))
  else "info"

/-- One character of the `sanitizeToken` regex replace:
`[^a-zA-Z0-9._-]` is replaced by `_`. -/
def sanitizeTokenChar (c : Char) : Char :=
  if c.isAlphanum ∨ c = '.' ∨ c = '_' ∨ c = '-' then c else '_'

/-- `sanitizeToken(value, maxLen)` (src/src/outbox/common.js lines 12-17):
trim, replace every character outside `[a-zA-Z0-9._-]` by `_`, truncate. -/
def sanitizeToken (value : Option String) (maxLen : Nat) : String :=
  ((((jsTrim (jsOrEmpty value)).toList).map sanitizeTokenChar).take maxLen).asString

/-- Input payload of `normalizeOutboxMessage`: only the fields the function
reads.  `attempt` stands for `meta.attempt`, the only `meta` field used by
the dispatcher.  (`createdAt`/`version`/`id` handling — clock reads, random
UUIDs — is not modelled.) -/
structure OutboxPayload where
  chatId : Option String
  chat : Option String
  type : Option String
  filePath : Option String
  text : Option String
  message : Option String
  content : Option String
  requestId : Option String
  request_id : Option String
  orchestrator : Option String
  attempt : Option Nat
deriving DecidableEq

/-- The `options` argument of `normalizeOutboxMessage` (the `process.env`
fallbacks are modelled as absent). -/
structure NormalizeOptions where
  fallbackChatId : Option String
  fallbackRequestId : Option String
  fallbackOrchestrator : Option String
deriving DecidableEq

/-- The normalized envelope produced by `normalizeOutboxMessage`. -/
structure OutboxEnvelope where
  chatId : String
  requestId : Option String
  orchestrator : String
  type : String
  text : String
  filePath : Option String
  attempt : Option Nat
deriving DecidableEq

/-- `MAX_TEXT_LENGTH` of src/src/outbox/common.js. -/
def MAX_TEXT_LENGTH : Nat := 12000

/-- `normalizeOutboxMessage` (src/src/outbox/common.js lines 59-117),
returning `Except` for the thrown validation errors. -/
def normalizeOutboxMessage (payload : OutboxPayload) (options : NormalizeOptions) :
    Except String OutboxEnvelope :=
  let fallbackChatId := jsOrEmpty options.fallbackChatId
  let fallbackRequestId := jsOrEmpty options.fallbackRequestId
  let fallbackOrchestrator :=
    if jsOrEmpty options.fallbackOrchestrator = "" then "unknown"
    else jsOrEmpty options.fallbackOrchestrator
  let chatId := jsTrim (jsOrEmpty (jsCoalesce payload.chatId
      (jsCoalesce payload.chat (some fallbackChatId))))
  if chatId = "" then .error "chatId zorunlu"
  else
    let type := normalizeOutboxType payload.type
    let filePath : Option String :=
      match payload.filePath with
      | some fp => if fp = "" then none else some (jsTrim fp)
      | none => none
    let filePathTruthy : Bool :=
      match filePath with
      | some fp => fp ≠ ""
      | none => false
    let text := jsTrim (jsOrEmpty (jsCoalesce payload.text
        (jsCoalesce payload.message payload.content)))
    if text = "" ∧ type ≠ "media" then .error "text zorunlu"
    else if text.length > MAX_TEXT_LENGTH then .error "text cok uzun"
    else if type = "media" ∧ filePathTruthy = false then .error "media mesajinda filePath zorunlu"
    else
      let requestId :=
        let r := jsTrim (jsOrEmpty (jsCoalesce payload.requestId
            (jsCoalesce payload.request_id (some fallbackRequestId))))
        if r = "" then none else some r
      let orchestrator :=
        let o := jsTrim (jsOrEmpty (jsCoalesce payload.orchestrator (some fallbackOrchestrator)))
        if o = "" then "unknown" else o
      .ok ⟨chatId, requestId, orchestrator, type, text,
        if filePathTruthy then filePath else none, payload.attempt⟩

/-- The request token used in pending file names
(`sanitizeToken(envelope.requestId || 'noreq', 24) || 'noreq'`,
src/src/outbox/common.js line 132). -/
def requestTokenOf (requestId : Option String) : String :=
  let base :=
    match requestId with
    | some r => if r = "" then "noreq" else r
    | none => "noreq"
  let t := sanitizeToken (some base) 24
  if t = "" then "noreq" else t

/-- `String(n).padStart(5, '0')`. -/
def padStart5 (n : Nat) : String :=
  let s := toString n
  (String.mk (List.replicate (5 - s.length) '0')) ++ s

/-- The pending file base name
`${ts}-${seq}-${requestToken}-${typeToken}-${randomToken}` plus `.json`
(src/src/outbox/common.js lines 131-136). -/
def outboxFileName (ts : Nat) (seq : Nat) (requestId : Option String)
    (type : String) (randomToken : String) : String :=
  let requestToken := requestTokenOf requestId
  let typeToken :=
    let t := sanitizeToken (some type) 12
    if t = "" then "info" else t
  toString ts ++ "-" ++ padStart5 seq ++ "-" ++ requestToken ++ "-" ++ typeToken
    ++ "-" ++ randomToken ++ ".json"

end OutboxCommon

/-! ## The per-chat queue loop body (`MessageHandler.runQueue`,
src/src/outbox/dispatcher.js lines 1339-1434)

`runQueue` pops jobs FIFO from the chat's queue; the body of the loop
(`processOneMessage` plus reply routing) sits inside a per-job
`try`/`catch`.  We model the body's outcome explicitly as an `Except`
and the `catch` conversion as a separate function, so that the claim
"errors are caught at the queue boundary" is about the actual structure
of the loop. -/

namespace RunQueueModel

open OutboxCommon

/-- JS truthiness of a nullable string. -/
def jsTruthyOpt : Option String → Bool
| none => false
| some s => s ≠ ""

/-- Result of `await this.processOneMessage(job.message)` as observed by
`runQueue`: a thrown exception, the `NO_RESPONSE` symbol, `null` /
`undefined`, or a string. -/
inductive ProcResult
| thrown (msg : String)
| noResponse
| nullish
| str (s : String)
deriving DecidableEq

/-- One queued job together with the behaviour of its environment while
it is handled: the request id of the execution meta consumed after
processing, whether `queueOutboxMessage` succeeds, and whether
`replyToMessage` succeeds. -/
structure JobRun where
  id : Nat
  result : ProcResult
  requestId : Option String
  outboxOk : Bool
  sendOk : Bool
deriving DecidableEq

/-- Observable output actions of the queue loop. -/
inductive QAction
| outboxed (jobId : Nat) (text : String) (type : String)
| replied (jobId : Nat) (text : String)
| sendFailedLogged (jobId : Nat) (text : String)
deriving DecidableEq

/-- The canned reply for an empty string result (lines 1356-1358; the
source file stores this text with this exact mis-encoded spelling). -/
def emptyReplyText : String :=
  "CevabÄ±m boÅŸ geldi (muhtemelen baÄŸlantÄ±/timeout ya da yalnÄ±zca bir plan bloÄŸu dÃ¶ndÃ¼). Tekrar dener misin? Ä°stersen `!!switch` ile farklÄ± bir orkestratÃ¶r de deneyebilirsin."

/-- The canned reply for a `null`/`undefined` result (lines 1369-1371). -/
def nullReplyText : String :=
  "Cevap alamadÄ±m (baÄŸlantÄ±/timeout veya orkestratÃ¶r tarafÄ±nda bir aksilik olmuÅŸ olabilir). Bir kez daha yazar mÄ±sÄ±n? Ä°stersen `!!switch` ile farklÄ± bir orkestratÃ¶r de deneyebiliriz."

/-- JS `text.split('\n')`, implemented structurally. -/
def splitOnNl (s : String) : List String :=
  let r :=
    (s.toList).foldl
      (fun (acc : List String × List Char) c =>
        if c = '\n' then (acc.1 ++ [acc.2.reverse.asString], [])
        else (acc.1, c :: acc.2))
      ([], [])
  r.1 ++ [r.2.reverse.asString]

/-- `splitMessage(text, maxLength)` (lines 1638-1657). -/
def splitMessage (text : String) (maxLength : Nat) : List String :=
  let r :=
    (splitOnNl text).foldl
      (fun (acc : List String × String) line =>
        if acc.2.length + line.length + 1 > maxLength then (acc.1 ++ [acc.2], line)
        else (acc.1, if acc.2 = "" then line else acc.2 ++ "\n" ++ line))
      ([], "")
  if r.2 = "" then r.1 else r.1 ++ [r.2]

/-- `addTerminalPrefix` (lines 1452-1456): prepend the active terminal
key tag when the chat has an active terminal. -/
def addTerminalTag (activeKey : Option String) (text : String) : String :=
  match activeKey with
  | some k => "[" ++ k ++ "] " ++ text
  | none => text

/-- Lines 1383-1384: tag the reply, split it when longer than 4000. -/
def chunksOf (activeKey : Option String) (result : String) : List String :=
  let tagged := addTerminalTag activeKey result
  if tagged.length > 4000 then splitMessage tagged 4000 else [tagged]

/-- Lines 1386-1399: route the chunks through the outbox
(`final` for the last chunk, `progress` before). -/
def sendChunksOutbox (j : JobRun) (chunks : List String) : List QAction :=
  (chunks.enum).map fun p => .outboxed j.id p.2 (if p.1 + 1 = chunks.length then "final" else "progress")

/-- Lines 1406-1417: the direct transport loop; a send failure is logged
and `break`s out of the remaining chunks. -/
def sendChunksDirect (j : JobRun) (chunks : List String) : List QAction :=
  if j.sendOk then chunks.map fun c => .replied j.id c
  else
    match chunks with
    | [] => []
    | c :: _ => [.sendFailedLogged j.id c]

/-- The `try` part of one iteration of the `runQueue` loop (lines
1347-1417): `processOneMessage` may throw (modelled by `.error`),
otherwise the result is routed. -/
def jobBody (activeKey : Option String) (j : JobRun) : Except String (List QAction) :=
  match j.result with
  | .thrown msg => .error msg
  | .noResponse => .ok []
  | .nullish =>
      .ok (if j.sendOk then [.replied j.id nullReplyText]
        else [.sendFailedLogged j.id nullReplyText])
  | .str s =>
      if jsTrim s = "" then
        .ok (if j.sendOk then [.replied j.id emptyReplyText]
          else [.sendFailedLogged j.id emptyReplyText])
      else
        let chunks := chunksOf activeKey s
        .ok (if jsTruthyOpt j.requestId ∧ j.outboxOk = true then sendChunksOutbox j chunks
          else sendChunksDirect j chunks)

/-- The `catch` block (lines 1418-1429): the exception is converted to
the user-facing reply `Hata: <message>`; a failure of that send is
logged and the loop continues. -/
def catchActions (j : JobRun) (msg : String) : List QAction :=
  if j.sendOk then [.replied j.id ("Hata: " ++ msg)]
  else [.sendFailedLogged j.id ("Hata: " ++ msg)]

/-- The `while` loop of `runQueue`: pop FIFO, run the body under the
per-job `try`/`catch`, continue with the rest. -/
def runQueue (activeKey : Option String) : List JobRun → List (Nat × List QAction)
| [] => []
| j :: rest =>
    (j.id,
      match jobBody activeKey j with
      | .error msg => catchActions j msg
      | .ok acts => acts) :: runQueue activeKey rest

end RunQueueModel

end ConversaRelay

namespace ConversaRelay

open OutboxCommon RunQueueModel

/-- **C6.** Every exception thrown while a job is processed is caught at
the queue boundary and converted into the user-facing reply
`Hata: <message>` for that chat, and the queue continues with every
remaining job: the loop output covers all jobs, in order, regardless of
which jobs threw. -/
theorem c6_errors_caught_per_job (activeKey : Option String) (jobs : List JobRun) :
    ((runQueue activeKey jobs).map Prod.fst = jobs.map JobRun.id) ∧
    (∀ n : Nat, ∀ hn : n < jobs.length, ∀ msg : String,
      (jobs.get ⟨n, hn⟩).result = .thrown msg →
      ∀ hr : n < (runQueue activeKey jobs).length,
        (runQueue activeKey jobs).get ⟨n, hr⟩ =
          ((jobs.get ⟨n, hn⟩).id, catchActions (jobs.get ⟨n, hn⟩) msg)) := by
  induction jobs with
  | nil =>
      refine ⟨rfl, ?_⟩
      intro n hn
      exact absurd hn (by simp)
  | cons j rest ih =>
      refine ⟨?_, ?_⟩
      · simpa [runQueue] using ih.1
      · intro n hn msg hthrown hr
        match n with
        | 0 =>
            simp only [List.get] at hthrown ⊢
            simp [runQueue, jobBody, hthrown]
        | Nat.succ m =>
            simp only [List.get] at hthrown ⊢
            exact ih.2 m (by simpa using hn) msg hthrown (by simpa [runQueue] using hr)

/-- Witness for C6: a queue of three jobs in which the middle one throws
still processes all three, and the failing job yields the converted
error reply. -/
theorem c6_witness :
    (runQueue (some "t1")
        [⟨1, .str "ok", none, true, true⟩, ⟨2, .thrown "boom", none, true, true⟩,
          ⟨3, .str "done", none, true, true⟩]).map Prod.fst = [1, 2, 3] ∧
    (runQueue (some "t1")
        [⟨1, .str "ok", none, true, true⟩, ⟨2, .thrown "boom", none, true, true⟩,
          ⟨3, .str "done", none, true, true⟩]).get ⟨1, by decide⟩ =
      (2, [QAction.replied 2 "Hata: boom"]) := by
  refine ⟨(c6_errors_caught_per_job (some "t1") _).1, ?_⟩
  have h := (c6_errors_caught_per_job (some "t1")
    [⟨1, .str "ok", none, true, true⟩, ⟨2, .thrown "boom", none, true, true⟩,
      ⟨3, .str "done", none, true, true⟩]).2 1 (by decide) "boom" rfl (by decide)
  rw [h]
  rfl

/-! ## Foreground reply de-duplication (`MessageHandler.hasOutboxActivity`
and the end of `processOneMessage`, src/src/outbox/dispatcher.js lines
1048-1062 and 1262-1273) -/

namespace ForegroundDedup

open OutboxCommon RunQueueModel

/-- The token computed inside `hasOutboxActivity`
(`String(requestId).replace(/[^a-zA-Z0-9._-]/g, '_').slice(0, 24)`;
note: unlike `sanitizeToken`, no trim). -/
def activityToken (requestId : String) : String :=
  (((requestId.toList).map sanitizeTokenChar).take 24).asString

/-- JS `String.prototype.includes`. -/
def strIncludes (hay needle : String) : Bool :=
  decide (needle.toList <:+: hay.toList)

/-- `hasOutboxActivity(requestId)` (lines 1048-1062): does any file name
in the pending or processed directory carry the request's token?  A
missing directory reads as the empty listing. -/
def hasOutboxActivity (pendingFiles processedFiles : List String)
    (requestId : Option String) : Bool :=
  match requestId with
  | none => false
  | some rid =>
      if rid = "" then false
      else
        let token := activityToken rid
        if token = "" ∨ token = "noreq" then false
        else (pendingFiles ++ processedFiles).any fun f => strIncludes f token

/-- Outcome of the end of `processOneMessage` for the foreground reply. -/
inductive ForegroundOutcome
| noResponse
| reply (text : String)
| fallbackText
deriving DecidableEq

/-- Lines 1262-1289 of `processOneMessage`: suppress the foreground
reply when the same request already produced outbox activity, otherwise
return the cleaned response (the remaining canned fallbacks for an empty
cleaned response are collapsed into `.fallbackText`).  `cleaned` stands
for `this.cleanResponse(response)`. -/
def foregroundRoute (pendingFiles processedFiles : List String)
    (lastRequestId : Option String) (cleaned : String) : ForegroundOutcome :=
  if jsTruthyOpt lastRequestId = true ∧
      hasOutboxActivity pendingFiles processedFiles lastRequestId = true then
    .noResponse
  else if cleaned ≠ "" ∧ jsTrim cleaned ≠ "" then .reply cleaned
  else .fallbackText

end ForegroundDedup

end ConversaRelay

namespace ConversaRelay

open OutboxCommon RunQueueModel ForegroundDedup

/-- **C9.** After a foreground execute returns: if the request id already
produced outbox activity (an envelope file whose name carries the
request's token, in the pending or processed directory), the foreground
reply is suppressed (`NO_RESPONSE`, which makes the queue loop send
nothing to the transport); otherwise the (non-empty) foreground reply is
delivered.  Moreover an envelope written for that request id does carry
the token in its pending file name, so it is detected. -/
theorem c9_foreground_suppression (pendingFiles processedFiles : List String)
    (r cleaned : String) (ts seq : Nat) (type rand : String)
    (jobId : Nat) (oOk sOk : Bool) (activeKey : Option String) :
    (hasOutboxActivity pendingFiles processedFiles (some r) = true →
      foregroundRoute pendingFiles processedFiles (some r) cleaned = .noResponse) ∧
    (hasOutboxActivity pendingFiles processedFiles (some r) = false →
      jsTrim cleaned ≠ "" → cleaned ≠ "" →
      foregroundRoute pendingFiles processedFiles (some r) cleaned = .reply cleaned) ∧
    (jobBody activeKey ⟨jobId, .noResponse, some r, oOk, sOk⟩ = .ok []) ∧
    (jsTrim r = r → activityToken r ≠ "" → activityToken r ≠ "noreq" →
      hasOutboxActivity (pendingFiles ++ [outboxFileName ts seq (some r) type rand])
        processedFiles (some r) = true) := by
  refine ⟨?_, ?_, rfl, ?_⟩
  · intro hact
    have hr : r ≠ "" := by
      intro he
      rw [he] at hact
      simp [hasOutboxActivity] at hact
    simp [foregroundRoute, jsTruthyOpt, hr, hact]
  · intro hact htrim hne
    simp [foregroundRoute, hact, htrim, hne]
  · intro htrimmed htok htoknoreq
    have hr : r ≠ "" := by
      intro he
      rw [he] at htok
      exact htok rfl
    have hreqtok : requestTokenOf (some r) = activityToken r := by
      unfold requestTokenOf sanitizeToken activityToken
      simp only [jsOrEmpty]
      rw [if_neg hr, htrimmed]
      rw [if_neg (by simpa [activityToken] using htok)]
    have hinc : strIncludes (outboxFileName ts seq (some r) type rand) (activityToken r) = true := by
      unfold strIncludes
      rw [decide_eq_true_iff]
      unfold outboxFileName
      simp only [hreqtok]
      refine ⟨(toString ts ++ "-" ++ padStart5 seq ++ "-").toList, ?_⟩
      refine ⟨("-" ++ (if sanitizeToken (some type) 12 = "" then "info"
        else sanitizeToken (some type) 12) ++ "-" ++ rand ++ ".json").toList, ?_⟩
      show _ = (((toString ts ++ "-" ++ padStart5 seq ++ "-" ++ activityToken r ++ "-" ++
        (if sanitizeToken (some type) 12 = "" then "info" else sanitizeToken (some type) 12)
        ++ "-" ++ rand ++ ".json") : String)).toList
      simp [String.append_assoc]
    simp only [hasOutboxActivity]
    rw [if_neg hr]
    rw [if_neg (not_or.mpr ⟨htok, htoknoreq⟩)]
    rw [List.any_eq_true]
    exact ⟨outboxFileName ts seq (some r) type rand, by simp, hinc⟩

/-- Witness for C9 at concrete inputs: a pending file written for request
`req-1` suppresses the foreground reply for `req-1`, while without any
outbox activity the reply is delivered. -/
theorem c9_witness :
    hasOutboxActivity [] [] (some "req-1") = false ∧
    foregroundRoute [] [] (some "req-1") "hello" = .reply "hello" ∧
    hasOutboxActivity ([] ++ [outboxFileName 1700 1 (some "req-1") "final" "abcd"]) []
      (some "req-1") = true ∧
    foregroundRoute [outboxFileName 1700 1 (some "req-1") "final" "abcd"] []
      (some "req-1") "hello" = .noResponse := by
  have h1 : hasOutboxActivity [] [] (some "req-1") = false := by decide
  have c := c9_foreground_suppression [] [] "req-1" "hello" 1700 1 "final" "abcd" 0 true true none
  have h4 := c.2.2.2 (by decide) (by decide) (by decide)
  refine ⟨h1, c.2.1 h1 (by decide) (by decide), h4, ?_⟩
  have c2 := c9_foreground_suppression
    [outboxFileName 1700 1 (some "req-1") "final" "abcd"] [] "req-1" "hello"
    1700 1 "final" "abcd" 0 true true none
  exact c2.1 (by simpa using h4)

/-! ## Session pool (`SessionManager`, src/unnamed/part_004)

`createSession` refuses a duplicate owner, and at capacity evicts
`findOldestIdleSession()` — a fold over the pool that starts its
minimum tracker at `Date.now()` and only considers sessions with
`lastActivity.getTime() < oldestTime`. -/

namespace SessionPool

/-- The pool-relevant part of a session process object
(`ClaudeProcess`/`CodexProcess`/`GeminiProcess`): `idle` is
`isIdle()` (`state === 'idle'`), `lastActivity` is
`lastActivity.getTime()` in epoch milliseconds. -/
structure Sess where
  id : Nat
  owner : String
  idle : Bool
  lastActivity : Nat
deriving DecidableEq

/-- One iteration of the `findOldestIdleSession` loop (src/unnamed/part_004
lines 158-170): the tracker `(oldest, oldestTime)` is replaced when the
session is idle and strictly older than the tracker. -/
def findStep (acc : Option Sess × Nat) (s : Sess) : Option Sess × Nat :=
  if s.idle = true ∧ s.lastActivity < acc.2 then (some s, s.lastActivity) else acc

/-- `findOldestIdleSession()`; the tracker starts at `(null, Date.now())`,
modelled by the parameter `now`. -/
def findOldestIdleSession (now : Nat) (sessions : List Sess) : Option Sess :=
  (sessions.foldl findStep (none, now)).1

/-- Errors thrown by `createSession`. -/
inductive CreateError
| already_exists
| capacity
deriving DecidableEq

/-- The session pool: the `Map` values in iteration (insertion) order,
plus the configured maximum. -/
structure Pool where
  sessions : List Sess
  maxSessions : Nat
deriving DecidableEq

/-- `createSession(phoneNumber)` (src/unnamed/part_004 lines 28-75):
duplicate-owner check, capacity check with eviction of the oldest idle
session (`endSession` deletes the victim's map entry and `kill`s it),
then insertion of the fresh (idle) session.  Returns the new pool and
the evicted session, or the thrown error. -/
def createSession (now : Nat) (p : Pool) (owner : String) (newId : Nat) :
    Except CreateError (Pool × Option Sess) :=
  if p.sessions.any (fun s => s.owner = owner) then .error .already_exists
  else if p.maxSessions ≤ p.sessions.length then
    match findOldestIdleSession now p.sessions with
    | some victim =>
        .ok (⟨(p.sessions.filter fun s => s.owner ≠ victim.owner) ++ [⟨newId, owner, true, now⟩],
          p.maxSessions⟩, some victim)
    | none => .error .capacity
  else .ok (⟨p.sessions ++ [⟨newId, owner, true, now⟩], p.maxSessions⟩, none)

/-- Fold characterization of `findOldestIdleSession`'s tracker loop. -/
theorem foldl_find_spec (now : Nat) :
    ∀ (l : List Sess) (acc : Option Sess × Nat),
    (acc.1 = none → acc.2 = now) →
    (∀ v, acc.1 = some v → acc.2 = v.lastActivity ∧ v.idle = true ∧ v.lastActivity < now) →
    ((l.foldl findStep acc).1 = none →
        acc.1 = none ∧ ∀ s ∈ l, ¬(s.idle = true ∧ s.lastActivity < now)) ∧
    (∀ v, (l.foldl findStep acc).1 = some v →
        (l.foldl findStep acc).2 = v.lastActivity ∧ v.idle = true ∧ v.lastActivity < now ∧
        (v ∈ l ∨ acc.1 = some v) ∧ (l.foldl findStep acc).2 ≤ acc.2 ∧
        ∀ s ∈ l, s.idle = true → s.lastActivity < now →
          (l.foldl findStep acc).2 ≤ s.lastActivity) := by
  intro l
  induction l with
  | nil =>
      intro acc hnone hsome
      refine ⟨fun h => ⟨h, by simp⟩, fun v hv => ?_⟩
      obtain ⟨h2, hidle, hlt⟩ := hsome v hv
      exact ⟨h2, hidle, hlt, Or.inr hv, le_refl _, by simp⟩
  | cons s rest ih =>
      intro acc hnone hsome
      by_cases hcond : s.idle = true ∧ s.lastActivity < acc.2
      · have hstep : findStep acc s = (some s, s.lastActivity) := by
          simp [findStep, hcond]
        have hsnow : s.lastActivity < now := by
          rcases h1 : acc.1 with _ | v
          · exact lt_of_lt_of_le hcond.2 (le_of_eq (hnone h1))
          · exact lt_trans hcond.2 (by rw [(hsome v h1).1] at hcond ⊢; exact (hsome v h1).2.2)
        have ih' := ih (findStep acc s)
          (by rw [hstep]; intro h; exact absurd h (by simp))
          (by rw [hstep]
              intro v hv
              injection hv with hv
              subst hv
              exact ⟨rfl, hcond.1, hsnow⟩)
        refine ⟨?_, ?_⟩
        · intro hres
          have := (ih'.1 (by simpa [List.foldl] using hres)).1
          rw [hstep] at this
          exact absurd this (by simp)
        · intro v hres
          have hres' : ((rest.foldl findStep (findStep acc s)).1 = some v) := by
            simpa [List.foldl] using hres
          obtain ⟨h2, hidle, hlt, hmem, hle, hmin⟩ := ih'.2 v hres'
          refine ⟨by simpa [List.foldl] using h2, hidle, hlt, ?_, ?_, ?_⟩
          · rcases hmem with hm | hm
            · exact Or.inl (List.mem_cons_of_mem _ hm)
            · rw [hstep] at hm
              injection hm with hm
              exact Or.inl (hm ▸ List.mem_cons_self _ _)
          · have : (rest.foldl findStep (findStep acc s)).2 ≤ s.lastActivity := by
              simpa [hstep] using hle
            calc (List.foldl findStep acc (s :: rest)).2
                = (rest.foldl findStep (findStep acc s)).2 := by simp [List.foldl]
              _ ≤ s.lastActivity := this
              _ ≤ acc.2 := le_of_lt hcond.2
          · intro x hx hxi hxl
            rcases List.mem_cons.mp hx with hxs | hxr
            · subst hxs
              simpa [List.foldl, hstep] using hle
            · simpa [List.foldl] using hmin x hxr hxi hxl
      · have hstep : findStep acc s = acc := by
          simp [findStep, hcond]
        have ih' := ih (findStep acc s) (by rw [hstep]; exact hnone) (by rw [hstep]; exact hsome)
        refine ⟨?_, ?_⟩
        · intro hres
          obtain ⟨haccnone, hrest⟩ := ih'.1 (by simpa [List.foldl] using hres)
          rw [hstep] at haccnone
          refine ⟨haccnone, ?_⟩
          intro x hx
          rcases List.mem_cons.mp hx with hxs | hxr
          · subst hxs
            intro hcontr
            exact hcond ⟨hcontr.1, lt_of_lt_of_le hcontr.2 (le_of_eq (hnone haccnone).symm)⟩
          · exact hrest x hxr
        · intro v hres
          have hres' : ((rest.foldl findStep (findStep acc s)).1 = some v) := by
            simpa [List.foldl] using hres
          obtain ⟨h2, hidle, hlt, hmem, hle, hmin⟩ := ih'.2 v hres'
          simp only [hstep] at h2 hmem hle hmin
          refine ⟨by simpa [List.foldl, hstep] using h2, hidle, hlt, ?_, ?_, ?_⟩
          · rcases hmem with hm | hm
            · exact Or.inl (List.mem_cons_of_mem _ hm)
            · exact Or.inr hm
          · simpa [List.foldl, hstep] using hle
          · intro x hx hxi hxl
            rcases List.mem_cons.mp hx with hxs | hxr
            · subst hxs
              have hge : acc.2 ≤ x.lastActivity := by
                by_contra hlt'
                exact hcond ⟨hxi, by omega⟩
              simp only [List.foldl, hstep]
              exact le_trans hle hge
            · simpa [List.foldl, hstep] using hmin x hxr hxi hxl

/-- `findOldestIdleSession` returns `none` exactly when no session is
idle with `lastActivity` strictly before `now`; otherwise it returns a
minimal such session. -/
theorem findOldest_spec (now : Nat) (l : List Sess) :
    (findOldestIdleSession now l = none →
      ∀ s ∈ l, ¬(s.idle = true ∧ s.lastActivity < now)) ∧
    (∀ v, findOldestIdleSession now l = some v →
      v ∈ l ∧ v.idle = true ∧ v.lastActivity < now ∧
      ∀ s ∈ l, s.idle = true → s.lastActivity < now →
        v.lastActivity ≤ s.lastActivity) := by
  have h := foldl_find_spec now l (none, now) (fun _ => rfl) (by intro v hv; exact absurd hv (by simp))
  refine ⟨fun hn => (h.1 hn).2, fun v hv => ?_⟩
  obtain ⟨h2, hidle, hlt, hmem, _, hmin⟩ := h.2 v hv
  refine ⟨?_, hidle, hlt, ?_⟩
  · rcases hmem with hm | hm
    · exact hm
    · exact absurd hm (by simp)
  · intro s hs hsi hsl
    have := hmin s hs hsi hsl
    rw [h2] at this
    exact this

end SessionPool

end ConversaRelay

namespace ConversaRelay

open SessionPool

/-- **C4 counterexample.** A pool at its maximum of 1 whose single
session is idle but has `lastActivity` equal to the fold's initial
tracker value (`Date.now()`): `createSession` for a fresh owner throws
the capacity error even though an idle session exists, because the
eviction scan only accepts sessions with `lastActivity` strictly below
`Date.now()`.  This refutes "if no session in the pool is idle, it
fails with a capacity error" read as "an idle session always gets
evicted". -/
theorem c4_counterexample :
    createSession 1000 ⟨[⟨1, "a", true, 1000⟩], 1⟩ "b" 7 = .error .capacity ∧
    (Pool.mk [⟨1, "a", true, 1000⟩] 1).sessions.any (fun s => s.idle) = true ∧
    (Pool.mk [⟨1, "a", true, 1000⟩] 1).sessions.length = (Pool.mk [⟨1, "a", true, 1000⟩] 1).maxSessions := by
  refine ⟨?_, by decide, by decide⟩
  rfl

/-- **C4 (amended).** `createSession` on a full pool with a fresh owner:
if no session is idle with `lastActivity` strictly before the current
clock value (in particular, if no session is idle at all), it fails with
the capacity error and returns no new pool; otherwise it evicts a
session that is idle, strictly older than the clock, and of minimal
`lastActivity` among such sessions, and then creates the new session. -/
theorem c4_capacity_eviction (now : Nat) (p : Pool) (owner : String) (newId : Nat)
    (hfresh : p.sessions.any (fun s => s.owner = owner) = false)
    (hfull : p.maxSessions ≤ p.sessions.length) :
    ((∀ s ∈ p.sessions, ¬(s.idle = true ∧ s.lastActivity < now)) →
      createSession now p owner newId = .error .capacity) ∧
    ((∃ s ∈ p.sessions, s.idle = true ∧ s.lastActivity < now) →
      ∃ victim, findOldestIdleSession now p.sessions = some victim) ∧
    (∀ victim, findOldestIdleSession now p.sessions = some victim →
      victim ∈ p.sessions ∧ victim.idle = true ∧ victim.lastActivity < now ∧
      (∀ s ∈ p.sessions, s.idle = true → s.lastActivity < now →
        victim.lastActivity ≤ s.lastActivity) ∧
      createSession now p owner newId =
        .ok (⟨(p.sessions.filter fun s => s.owner ≠ victim.owner) ++ [⟨newId, owner, true, now⟩],
          p.maxSessions⟩, some victim)) := by
  have hspec := findOldest_spec now p.sessions
  refine ⟨?_, ?_, ?_⟩
  · intro hnone
    have hfind : findOldestIdleSession now p.sessions = none := by
      cases hcase : findOldestIdleSession now p.sessions with
      | none => rfl
      | some v =>
          obtain ⟨hv, hidle, hlt, _⟩ := hspec.2 v hcase
          exact absurd ⟨hidle, hlt⟩ (hnone v hv)
    unfold createSession
    rw [if_neg (by simp [hfresh]), if_pos hfull, hfind]
  · intro ⟨s, hs, hsi, hsl⟩
    cases hcase : findOldestIdleSession now p.sessions with
    | none => exact absurd ⟨hsi, hsl⟩ (hspec.1 hcase s hs)
    | some v => exact ⟨v, rfl⟩
  · intro victim hv
    obtain ⟨hmem, hidle, hlt, hmin⟩ := hspec.2 victim hv
    refine ⟨hmem, hidle, hlt, hmin, ?_⟩
    unfold createSession
    rw [if_neg (by simp [hfresh]), if_pos hfull, hv]

/-- Witness for C4 at concrete inputs: a full pool with an idle session
strictly older than the clock evicts it and creates the new session. -/
theorem c4_witness :
    createSession 1000 ⟨[⟨1, "a", true, 500⟩], 1⟩ "b" 7 =
      .ok (⟨[⟨7, "b", true, 1000⟩], 1⟩, some ⟨1, "a", true, 500⟩) := by
  have h := (c4_capacity_eviction 1000 ⟨[⟨1, "a", true, 500⟩], 1⟩ "b" 7
    (by decide) (by decide)).2.2 ⟨1, "a", true, 500⟩ (by decide)
  rw [h.2.2.2.2]
  rfl

/-! ## Background task manager (src/src/background/task-manager.js,
mirrored in src/unnamed/part_011) and `MessageHandler.startBackgroundTask`
(src/src/outbox/dispatcher.js lines 878-957) -/

namespace TaskModel

open OutboxCommon

/-- The persisted part of a background task record relevant to the cap
(the `process` handle, timestamps and result fields are not modelled). -/
structure TaskRec where
  id : String
  owner : String
  description : String
  prompt : String
  status : String
  orchestrator : String
deriving DecidableEq

/-- `getActiveTaskCount(owner)` (task-manager lines 562-570): number of
tasks of this owner with status `running`. -/
def getActiveTaskCount (tasks : List TaskRec) (owner : String) : Nat :=
  (tasks.filter fun t => t.owner = owner ∧ t.status = "running").length

/-- JS `String.prototype.startsWith`. -/
def strStartsWith (s p : String) : Bool :=
  decide (p.toList <+: s.toList)

/-- `normalizeOrchestrator(value)` (task-manager lines 61-70). -/
def normalizeOrchestrator (value : Option String) : Option String :=
  let raw := jsToLower (jsTrim (jsOrEmpty value))
  if raw = "" then none
  else if raw = "default" ∨ raw = "auto" then none
  else if strStartsWith raw "gemini" then some "gemini"
  else if strStartsWith raw "claude" ∨ raw = "anthropic" then some "claude"
  else if strStartsWith raw "codex" ∨ strStartsWith raw "openai" ∨ strStartsWith raw "gpt" then
    some "codex"
  else if raw = "sonnet" ∨ raw = "haiku" ∨ raw = "opus" then some "claude"
  else none

/-- `getDefaultOrchestrator()` with no `BG_ORCHESTRATOR` etc. in the
environment. -/
def getDefaultOrchestrator : String := "codex"

/-- JS `prompt.substring(0, n)`. -/
def jsSubstring (s : String) (n : Nat) : String :=
  ((s.toList).take n).asString

/-- Observable persistence/spawn effects of starting a task, in order. -/
inductive TaskEff
| persisted (tasks : List TaskRec)
| spawned (taskId : String)
deriving DecidableEq

/-- `taskManager.startTask({...})` (task-manager lines 114-188) up to the
orchestrator-specific spawn: the record is stored with status `running`
and persisted via `saveTasks()` *before* `startCodexTask` /
`startClaudeTask` / `startGeminiTask` spawns the detached process. -/
def startTask (tasks : List TaskRec) (owner description prompt : String)
    (orchestrator : Option String) (newId : String) :
    TaskRec × List TaskRec × List TaskEff :=
  let selectedOrchestrator := (normalizeOrchestrator orchestrator).getD getDefaultOrchestrator
  let task : TaskRec :=
    ⟨newId, owner, description, jsSubstring prompt 500, "running", selectedOrchestrator⟩
  let tasks' := tasks ++ [task]
  (task, tasks', [.persisted tasks', .spawned newId])

/-- The user-facing plan message built by `startBackgroundTask`
(dispatcher.js lines 940-956; the source file stores the emoji in this
exact mis-encoded spelling). -/
def bgUserMessage (title : String) (steps : List String) (selectedOrchestrator : String) : String :=
  let m1 := "ðŸš€ *" ++ title ++ "*\n\n"
  let m2 :=
    if selectedOrchestrator ≠ "" then
      m1 ++ "ðŸ¤– OrkestratÃ¶r: " ++ selectedOrchestrator ++ "\n\n"
    else m1
  let m3 :=
    if steps.length > 0 then
      ((steps.enum).foldl
        (fun acc p => acc ++ toString (p.1 + 1) ++ ". " ++ p.2 ++ "\n")
        (m2 ++ "ðŸ“‹ Plan:\n")) ++ "\n"
    else m2
  m3 ++ "_Arka planda Ã§alÄ±ÅŸÄ±yorum, bitince haber vereceÄŸim. Åžimdi baÅŸka bir ÅŸey sorabilirsin!_"

/-- `MessageHandler.startBackgroundTask(message, taskPlan, images)`
(dispatcher.js lines 878-957).  `userOrchestrator` models
`sessionManager.getOrchestratorType(from)`; the cap check happens before
`taskManager.startTask`, so at or above the cap nothing is stored and
`null` is returned. -/
def startBackgroundTask (tasks : List TaskRec) (owner : String) (maxTasks : Nat)
    (title : String) (steps : List String) (prompt : String)
    (planOrchestrator : Option String) (userOrchestrator : String) (newId : String) :
    Option String × List TaskRec × List TaskEff :=
  let selectedOrchestrator :=
    match planOrchestrator with
    | some o => if o = "" then userOrchestrator else o
    | none => userOrchestrator
  if maxTasks ≤ getActiveTaskCount tasks owner then (none, tasks, [])
  else
    let description :=
      if title = "" then
        (if prompt.length > 50 then jsSubstring prompt 50 ++ "..." else prompt)
      else title
    let r := startTask tasks owner description prompt (some selectedOrchestrator) newId
    (some (bgUserMessage title steps selectedOrchestrator), r.2.1, r.2.2)

/-- Lines 1249-1273 of `processOneMessage`: when a background task plan
is present, a non-null `startBackgroundTask` result is returned
immediately; a null result falls through to the normal foreground
routing. -/
def processTail (bgResult : Option String) (pendingFiles processedFiles : List String)
    (lastRequestId : Option String) (cleaned : String) : ForegroundDedup.ForegroundOutcome :=
  match bgResult with
  | some m => .reply m
  | none => ForegroundDedup.foregroundRoute pendingFiles processedFiles lastRequestId cleaned

end TaskModel

end ConversaRelay

namespace ConversaRelay

open TaskModel

/-- **C7.** Starting a background task for an owner at or above the cap
returns `null`, stores and persists nothing, and the caller falls back
to the foreground routing; below the cap, the returned record has status
`running` and is persisted (`saveTasks`) before the detached process is
spawned. -/
theorem c7_background_task_cap (tasks : List TaskRec) (owner : String) (maxTasks : Nat)
    (title : String) (steps : List String) (prompt : String)
    (planOrchestrator : Option String) (userOrchestrator : String) (newId : String)
    (pendingFiles processedFiles : List String) (lastRequestId : Option String)
    (cleaned : String) :
    (maxTasks ≤ getActiveTaskCount tasks owner →
      startBackgroundTask tasks owner maxTasks title steps prompt planOrchestrator
          userOrchestrator newId =
        (none, tasks, []) ∧
      processTail (startBackgroundTask tasks owner maxTasks title steps prompt
          planOrchestrator userOrchestrator newId).1
          pendingFiles processedFiles lastRequestId cleaned =
        ForegroundDedup.foregroundRoute pendingFiles processedFiles lastRequestId cleaned) ∧
    (getActiveTaskCount tasks owner < maxTasks →
      ∃ task : TaskRec,
        task.owner = owner ∧ task.status = "running" ∧ task.id = newId ∧
        (startBackgroundTask tasks owner maxTasks title steps prompt planOrchestrator
            userOrchestrator newId).2.1 = tasks ++ [task] ∧
        (startBackgroundTask tasks owner maxTasks title steps prompt planOrchestrator
            userOrchestrator newId).2.2 =
          [.persisted (tasks ++ [task]), .spawned newId] ∧
        (startBackgroundTask tasks owner maxTasks title steps prompt planOrchestrator
            userOrchestrator newId).1 ≠ none) := by
  constructor
  · intro hcap
    have h : startBackgroundTask tasks owner maxTasks title steps prompt planOrchestrator
        userOrchestrator newId = (none, tasks, []) := by
      unfold startBackgroundTask
      rw [if_pos hcap]
    refine ⟨h, ?_⟩
    rw [h]
    rfl

  · intro hcap
    refine ⟨⟨newId, owner,
      (if title = "" then
        (if prompt.length > 50 then jsSubstring prompt 50 ++ "..." else prompt)
      else title), jsSubstring prompt 500, "running",
      (normalizeOrchestrator (some (match planOrchestrator with
        | some o => if o = "" then userOrchestrator else o
        | none => userOrchestrator))).getD getDefaultOrchestrator⟩,
      rfl, rfl, rfl, ?_, ?_, ?_⟩
    · unfold startBackgroundTask startTask
      rw [if_neg (by omega)]
    · unfold startBackgroundTask startTask
      rw [if_neg (by omega)]
    · unfold startBackgroundTask
      rw [if_neg (by omega)]
      simp

/-- Witness for C7 at concrete inputs: with cap 3 and three running
tasks the call returns null and leaves the store unchanged; with an
empty store the new `running` record is persisted before the spawn. -/
theorem c7_witness :
    startBackgroundTask
        [⟨"a1", "u", "d", "p", "running", "codex"⟩, ⟨"a2", "u", "d", "p", "running", "codex"⟩,
          ⟨"a3", "u", "d", "p", "running", "codex"⟩] "u" 3 "T" [] "do it" none "codex" "t9" =
      (none,
        [⟨"a1", "u", "d", "p", "running", "codex"⟩, ⟨"a2", "u", "d", "p", "running", "codex"⟩,
          ⟨"a3", "u", "d", "p", "running", "codex"⟩], []) ∧
    ∃ task : TaskRec, task.owner = "u" ∧ task.status = "running" ∧
      (startBackgroundTask [] "u" 3 "T" [] "do it" none "codex" "t9").2.2 =
        [.persisted [task], .spawned "t9"] := by
  constructor
  · exact ((c7_background_task_cap
      [⟨"a1", "u", "d", "p", "running", "codex"⟩, ⟨"a2", "u", "d", "p", "running", "codex"⟩,
        ⟨"a3", "u", "d", "p", "running", "codex"⟩] "u" 3 "T" [] "do it" none "codex" "t9"
      [] [] none "").1 (by decide)).1
  · obtain ⟨task, hown, hst, hid, hstore, heff, hnn⟩ :=
      (c7_background_task_cap [] "u" 3 "T" [] "do it" none "codex" "t9" [] [] none "").2
        (by decide)
    exact ⟨task, hown, hst, by simpa using heff⟩

/-! ## Outbox retry loop (`OutboxDispatcher.retryOrFail`,
src/src/outbox/dispatcher.js lines 129-164, driven by `processPending` /
`processFile` over successive polls)

For one written envelope: each delivery attempt either succeeds (the file
moves to `processed`), or `retryOrFail` computes
`attempt = (meta.attempt || 0) + 1` and, when `attempt <= maxRetries`,
re-queues a copy with `meta.attempt = attempt` into `pending`; beyond the
bound the envelope is written to `failed` with the error recorded. -/

namespace OutboxRetry

/-- The dispatcher-visible state of a single envelope lineage:
`pending = some a` means a pending copy whose `meta.attempt` is `a`
(`none` on the originally written file is modelled as `a = 0`, matching
`Number(envelope?.meta?.attempt || 0)`). -/
structure RState where
  pending : Option Nat
  processed : Nat
  failed : List String
  sends : Nat
deriving DecidableEq

/-- The freshly written envelope: no retry meta, nothing delivered. -/
def initialState : RState := ⟨some 0, 0, [], 0⟩

/-- One `processFile` run on the pending copy (claim, parse, send,
then `markProcessed` or `retryOrFail`): `transport i` tells whether the
`i`-th `sendMessage` call (counting from 0) succeeds, `errMsg` is the
transport error message recorded on failure. -/
def processPendingOnce (maxRetries : Nat) (transport : Nat → Bool) (errMsg : String)
    (s : RState) : RState :=
  match s.pending with
  | none => s
  | some att =>
      if transport s.sends then
        { s with pending := none, processed := s.processed + 1, sends := s.sends + 1 }
      else
        if att + 1 ≤ maxRetries then
          { s with pending := some (att + 1), sends := s.sends + 1 }
        else
          { s with pending := none, failed := s.failed ++ [errMsg], sends := s.sends + 1 }

/-- The polling loop: re-run `processPending` until the lineage has no
pending copy (each re-queued copy is picked up by a later poll).  `fuel`
bounds the number of polls considered. -/
def runDispatcher (maxRetries : Nat) (transport : Nat → Bool) (errMsg : String) :
    Nat → RState → RState
| 0, s => s
| fuel + 1, s =>
    match s.pending with
    | none => s
    | some _ =>
        runDispatcher maxRetries transport errMsg fuel
          (processPendingOnce maxRetries transport errMsg s)

/-- A transport that fails the first `f` sends and succeeds afterwards. -/
def failFirst (f : Nat) : Nat → Bool := fun i => decide (f ≤ i)

/-- A transport that always fails. -/
def alwaysFail : Nat → Bool := fun _ => false

/-- Once the lineage has no pending copy, further polls change nothing. -/
theorem runDispatcher_none (maxRetries : Nat) (transport : Nat → Bool) (errMsg : String)
    (fuel p s : Nat) (fl : List String) :
    runDispatcher maxRetries transport errMsg fuel ⟨none, p, fl, s⟩ = ⟨none, p, fl, s⟩ := by
  cases fuel <;> rfl

/-- Core loop invariant: from a pending copy with attempt count `k` after
`k` failed sends, a transport that fails the first `f` sends
(`k ≤ f ≤ maxRetries`) ends with a single processed file after `f + 1`
sends in total. -/
theorem run_failFirst_spec (maxRetries f : Nat) (errMsg : String) (hf : f ≤ maxRetries) :
    ∀ fuel k, k ≤ f → f + 1 - k ≤ fuel →
    runDispatcher maxRetries (failFirst f) errMsg fuel ⟨some k, 0, [], k⟩ =
      ⟨none, 1, [], f + 1⟩ := by
  intro fuel
  induction fuel with
  | zero =>
      intro k hk hfuel
      omega
  | succ n ih =>
      intro k hk hfuel
      by_cases hkf : k = f
      · have htr : failFirst f k = true := by simp [failFirst, hkf]
        have hstep : runDispatcher maxRetries (failFirst f) errMsg (n + 1) ⟨some k, 0, [], k⟩ =
            runDispatcher maxRetries (failFirst f) errMsg n ⟨none, 1, [], k + 1⟩ := by
          simp [runDispatcher, processPendingOnce, htr]
        rw [hstep, runDispatcher_none, hkf]
      · have htr : failFirst f k = false := by
          simp only [failFirst, decide_eq_false_iff_not]
          omega
        have hret : k + 1 ≤ maxRetries := by omega
        have hstep : runDispatcher maxRetries (failFirst f) errMsg (n + 1) ⟨some k, 0, [], k⟩ =
            runDispatcher maxRetries (failFirst f) errMsg n ⟨some (k + 1), 0, [], k + 1⟩ := by
          simp [runDispatcher, processPendingOnce, htr, hret]
        rw [hstep]
        exact ih (k + 1) (by omega) (by omega)

/-- Core loop invariant for a transport that always fails: from attempt
count `k` after `k` sends, the lineage ends with exactly one failed
record (error recorded) after `maxRetries + 1` sends. -/
theorem run_alwaysFail_spec (maxRetries : Nat) (errMsg : String) :
    ∀ fuel k, k ≤ maxRetries → maxRetries + 2 - k ≤ fuel →
    runDispatcher maxRetries alwaysFail errMsg fuel ⟨some k, 0, [], k⟩ =
      ⟨none, 0, [errMsg], maxRetries + 1⟩ := by
  intro fuel
  induction fuel with
  | zero =>
      intro k hk hfuel
      omega
  | succ n ih =>
      intro k hk hfuel
      by_cases hkm : k = maxRetries
      · have hnot : ¬(k + 1 ≤ maxRetries) := by omega
        have hstep : runDispatcher maxRetries alwaysFail errMsg (n + 1) ⟨some k, 0, [], k⟩ =
            runDispatcher maxRetries alwaysFail errMsg n ⟨none, 0, [errMsg], k + 1⟩ := by
          simp [runDispatcher, processPendingOnce, alwaysFail, hnot]
        rw [hstep, runDispatcher_none, hkm]
      · have hret : k + 1 ≤ maxRetries := by omega
        have hstep : runDispatcher maxRetries alwaysFail errMsg (n + 1) ⟨some k, 0, [], k⟩ =
            runDispatcher maxRetries alwaysFail errMsg n ⟨some (k + 1), 0, [], k + 1⟩ := by
          simp [runDispatcher, processPendingOnce, alwaysFail, hret]
        rw [hstep]
        exact ih (k + 1) (by omega) (by omega)

end OutboxRetry

end ConversaRelay

namespace ConversaRelay

open OutboxRetry

/-- **C3 counterexample.** With the default `maxRetries = 3` and an
always-failing transport, after exactly `maxRetries` delivery attempts
the envelope is *not* yet in `failed` (it is still pending, with
`meta.attempt = 3`); the failed record only appears after the
`maxRetries + 1`-st attempt.  This refutes "exactly one file in failed
... after maxRetries delivery attempts". -/
theorem c3_counterexample :
    (runDispatcher 3 alwaysFail "send boom" 3 initialState).sends = 3 ∧
    (runDispatcher 3 alwaysFail "send boom" 3 initialState).failed = [] ∧
    (runDispatcher 3 alwaysFail "send boom" 3 initialState).pending = some 3 ∧
    (runDispatcher 3 alwaysFail "send boom" 5 initialState).sends = 4 ∧
    (runDispatcher 3 alwaysFail "send boom" 5 initialState).failed = ["send boom"] := by
  refine ⟨?_, ?_, ?_, ?_, ?_⟩ <;> decide

/-- **C3 (amended).** For one written envelope: a transport failing
exactly `maxRetries - 1` times and then succeeding ends with exactly one
processed file and none pending or failed (after `maxRetries` delivery
attempts); an always-failing transport ends with exactly one failed
record (its error populated) and none pending or processed, after
`maxRetries + 1` delivery attempts (the initial attempt plus
`maxRetries` retries). -/
theorem c3_retry_outcome (maxRetries : Nat) (errMsg : String) (fuel : Nat)
    (hm : 1 ≤ maxRetries) (hfuel : maxRetries + 2 ≤ fuel) :
    runDispatcher maxRetries (failFirst (maxRetries - 1)) errMsg fuel initialState =
      ⟨none, 1, [], maxRetries⟩ ∧
    runDispatcher maxRetries alwaysFail errMsg fuel initialState =
      ⟨none, 0, [errMsg], maxRetries + 1⟩ := by
  constructor
  · have h := run_failFirst_spec maxRetries (maxRetries - 1) errMsg (by omega) fuel 0
      (by omega) (by omega)
    rw [initialState, h]
    congr 1
    omega
  · exact run_alwaysFail_spec maxRetries errMsg fuel 0 (by omega) (by omega)

/-- Witness for C3 at concrete inputs (`maxRetries = 3`, ample fuel). -/
theorem c3_witness :
    runDispatcher 3 (failFirst 2) "boom" 6 initialState = ⟨none, 1, [], 3⟩ ∧
    runDispatcher 3 alwaysFail "boom" 6 initialState = ⟨none, 0, ["boom"], 4⟩ :=
  c3_retry_outcome 3 "boom" 6 (by decide) (by decide)

/-! ## Terminal registry and lazy terminal switching
(`TerminalHandler`, src/src/orchestrator/terminal-handler.js) -/

namespace TerminalModel

open OutboxCommon

/-- One terminal slot (`{orchestrator, stateData, label, createdAt, lastUsed}`;
timestamps are clock ticks). -/
structure Term where
  orchestrator : String
  stateData : Option String
  label : String
  lastUsed : Nat
deriving DecidableEq

/-- The per-user registry entry `{activeKey, counter, sessions}`. -/
structure UserReg where
  activeKey : Option String
  counter : Nat
  sessions : List (String × Term)
deriving DecidableEq

/-- The live session fields the handler reads:
`session._terminalKey` and `session.orchestratorType`. -/
structure LiveSession where
  terminalKey : Option String
  orchestratorType : String
deriving DecidableEq

/-- The state touched by the handler, for one user: the registry entry,
the live session, the per-orchestrator-kind resume store entries for
this owner, and the orchestrator preference
(`orchestratorManager.getOrchestrator`). -/
structure TState where
  registry : Option UserReg
  live : Option LiveSession
  stores : String → Option String
  orchPref : String

/-- `userData.sessions[key]` on the object modelled as an assoc list. -/
def lookupTerm (reg : UserReg) (key : String) : Option Term :=
  (reg.sessions.find? fun p => p.1 == key).map Prod.snd

/-- In-place mutation of `userData.sessions[key]`. -/
def setTermState (reg : UserReg) (key : String) (f : Term → Term) : UserReg :=
  { reg with sessions := reg.sessions.map fun p => if p.1 = key then (p.1, f p.2) else p }

/-- `getStorePath` (lines 360-366) maps the lower-cased, trimmed kind to
a store file; `readStoreFile` returns the owner's entry of that file. -/
def readStoreFile (stores : String → Option String) (orchestratorType : String) :
    Option String :=
  let t := jsTrim (jsToLower orchestratorType)
  if t = "claude" ∨ t = "codex" ∨ t = "gemini" then stores t else none

/-- `writeStoreFile` (lines 380-400): set the owner's entry when
`stateData` is present, delete it otherwise; no-op for an unknown kind. -/
def writeStoreFile (stores : String → Option String) (orchestratorType : String)
    (stateData : Option String) : String → Option String :=
  let t := jsTrim (jsToLower orchestratorType)
  if t = "claude" ∨ t = "codex" ∨ t = "gemini" then
    fun k => if k = t then stateData else stores k
  else stores

/-- `snapshotActiveSession` (lines 309-322): read the active terminal's
orchestrator store and save it into that terminal's registry slot.  The
live session is never touched. -/
def snapshotActiveSession (now : Nat) (st : TState) : TState :=
  match st.registry with
  | none => st
  | some reg =>
      match reg.activeKey with
      | none => st
      | some ak =>
          match lookupTerm reg ak with
          | none => st
          | some term =>
              match readStoreFile st.stores
                  (if term.orchestrator = "" then st.orchPref else term.orchestrator) with
              | none => st
              | some sd =>
                  { st with registry := some (setTermState reg ak fun t =>
                      { t with stateData := some sd, lastUsed := now }) }

/-- Outcome of `handleChange`. -/
inductive ChangeResult
| usage
| notFound
| alreadyActive
| changed
deriving DecidableEq

/-- `handleChange(phoneNumber, targetKey)` (lines 111-146): snapshot the
current terminal, set the orchestrator preference, update `activeKey`
and the target's `lastUsed` — and nothing else ("Sadece registry
güncelle — store dosyasına ve session'a dokunma"). -/
def handleChange (now : Nat) (st : TState) (targetKey : String) : ChangeResult × TState :=
  if targetKey = "" then (.usage, st)
  else
    let key := jsTrim (jsToLower targetKey)
    match st.registry with
    | none => (.notFound, st)
    | some reg =>
        match lookupTerm reg key with
        | none => (.notFound, st)
        | some target =>
            if some key = reg.activeKey then (.alreadyActive, st)
            else
              let st1 := snapshotActiveSession now st
              let st2 := { st1 with orchPref := target.orchestrator }
              match st2.registry with
              | none => (.changed, st2)
              | some reg2 =>
                  (.changed, { st2 with registry := some (setTermState
                    { reg2 with activeKey := some key } key fun t =>
                      { t with lastUsed := now }) })

/-- `ensureCorrectTerminal(phoneNumber)` (lines 256-302), invoked by
`processOneMessage` before session lookup: when the live session's bound
terminal key differs from `activeKey`, snapshot the old session's resume
state into its own slot, end the session, and seed the store with the
target terminal's saved state. -/
def ensureCorrectTerminal (now : Nat) (st : TState) : Bool × TState :=
  match st.registry with
  | none => (false, st)
  | some reg =>
      match reg.activeKey with
      | none => (false, st)
      | some ak =>
          match st.live with
          | none =>
              match lookupTerm reg ak with
              | some target =>
                  (false,
                    { st with
                      stores := writeStoreFile st.stores target.orchestrator target.stateData })
              | none => (false, st)
          | some live =>
              if live.terminalKey = some ak then (false, st)
              else
                let reg1 :=
                  match live.terminalKey with
                  | some oldKey =>
                      match lookupTerm reg oldKey with
                      | some _ =>
                          match readStoreFile st.stores live.orchestratorType with
                          | some oldState =>
                              setTermState reg oldKey fun t =>
                                { t with stateData := some oldState, lastUsed := now }
                          | none => reg
                      | none => reg
                  | none => reg
                let st1 := { st with registry := some reg1, live := none }
                let st2 :=
                  match lookupTerm reg1 ak with
                  | some target =>
                      { st1 with
                        stores := writeStoreFile st1.stores target.orchestrator target.stateData }
                  | none => st1
                (true, st2)

/-- `sessions[key]` lookup after an in-place update of slot `k`. -/
theorem lookupTerm_setTermState (reg : UserReg) (k k' : String) (f : Term → Term) :
    lookupTerm (setTermState reg k f) k' =
      if k' = k then (lookupTerm reg k').map f else lookupTerm reg k' := by
  unfold lookupTerm setTermState
  simp only
  induction reg.sessions with
  | nil => by_cases h : k' = k <;> simp [h]
  | cons p rest ih =>
      by_cases hpk : p.1 = k
      · by_cases hk' : k' = k
        · simp [List.find?, hpk, hk', beq_iff_eq]
        · have hpk' : (p.1 == k') = false := by
            simp [beq_iff_eq]
            rw [hpk]
            exact fun h => hk' h.symm
          simp only [List.map_cons, if_pos hpk, List.find?, hpk']
          simpa [hk'] using ih
      · by_cases hpk' : p.1 = k'
        · have hk'k : ¬(k' = k) := fun h => hpk (hpk'.symm ▸ h)
          simp [List.find?, hpk, hpk', beq_iff_eq, hk'k]
        · have hbeq : (p.1 == k') = false := by simp [beq_iff_eq, hpk']
          simp only [List.map_cons, if_neg hpk, List.find?, hbeq]
          exact ih

/-- `snapshotActiveSession` never touches the live session, the store
files, or the orchestrator preference. -/
theorem snapshot_frame (now : Nat) (st : TState) :
    (snapshotActiveSession now st).live = st.live ∧
    (snapshotActiveSession now st).stores = st.stores ∧
    (snapshotActiveSession now st).orchPref = st.orchPref := by
  refine ⟨?_, ?_, ?_⟩
  · unfold snapshotActiveSession
    repeat' split
    all_goals rfl
  · unfold snapshotActiveSession
    repeat' split
    all_goals rfl
  · unfold snapshotActiveSession
    repeat' split
    all_goals rfl

/-- `snapshotActiveSession` keeps the registry present and keeps
`activeKey`. -/
theorem snapshot_registry (now : Nat) (st : TState) (reg : UserReg)
    (hreg : st.registry = some reg) :
    ∃ reg', (snapshotActiveSession now st).registry = some reg' ∧
      reg'.activeKey = reg.activeKey := by
  unfold snapshotActiveSession
  simp only [hreg]
  cases hak : reg.activeKey with
  | none => exact ⟨reg, by simp [hreg], hak⟩
  | some ak =>
      cases hlk : lookupTerm reg ak with
      | none => exact ⟨reg, by simp [hreg, hlk], hak⟩
      | some term =>
          cases hrd : readStoreFile st.stores
              (if term.orchestrator = "" then st.orchPref else term.orchestrator) with
          | none => exact ⟨reg, by simp [hreg, hlk, hrd], hak⟩
          | some sd =>
              refine ⟨setTermState reg ak fun t =>
                { t with stateData := some sd, lastUsed := now }, ?_, hak⟩
              simp [hlk, hrd]

end TerminalModel

end ConversaRelay

namespace ConversaRelay

open OutboxCommon TerminalModel

/-- **C5.** A terminal-change command with a live session present only
updates the registry (the `activeKey`, the target's `lastUsed` and the
snapshot of the previously active slot): the live session object — its
bound terminal key included — and the resume store files are unchanged.
The session is only rebound when the next job runs
`ensureCorrectTerminal` and finds the live session's terminal key
different from `activeKey`: then the old session's resume state is
snapshotted into its own slot, the session is torn down, and the target
terminal's saved state is seeded into the resume store. -/
theorem c5_lazy_terminal_switch (now : Nat) :
    (∀ (reg : UserReg) (L : LiveSession) (stores : String → Option String)
        (pref targetKey : String) (target : Term),
      targetKey ≠ "" →
      jsTrim (jsToLower targetKey) = targetKey →
      lookupTerm reg targetKey = some target →
      some targetKey ≠ reg.activeKey →
      (handleChange now ⟨some reg, some L, stores, pref⟩ targetKey).1 = .changed ∧
      (handleChange now ⟨some reg, some L, stores, pref⟩ targetKey).2.live = some L ∧
      (handleChange now ⟨some reg, some L, stores, pref⟩ targetKey).2.stores = stores ∧
      ∃ reg' : UserReg,
        (handleChange now ⟨some reg, some L, stores, pref⟩ targetKey).2.registry = some reg' ∧
        reg'.activeKey = some targetKey) ∧
    (∀ (reg : UserReg) (L : LiveSession) (stores : String → Option String)
        (pref A B : String) (TA TB : Term) (σ : String),
      reg.activeKey = some B →
      L.terminalKey = some A →
      A ≠ B →
      lookupTerm reg A = some TA →
      lookupTerm reg B = some TB →
      readStoreFile stores L.orchestratorType = some σ →
      (TB.orchestrator = "claude" ∨ TB.orchestrator = "codex" ∨ TB.orchestrator = "gemini") →
      jsTrim (jsToLower TB.orchestrator) = TB.orchestrator →
      (ensureCorrectTerminal now ⟨some reg, some L, stores, pref⟩).1 = true ∧
      (ensureCorrectTerminal now ⟨some reg, some L, stores, pref⟩).2.live = none ∧
      (∃ reg' : UserReg,
        (ensureCorrectTerminal now ⟨some reg, some L, stores, pref⟩).2.registry = some reg' ∧
        lookupTerm reg' A = some { TA with stateData := some σ, lastUsed := now } ∧
        lookupTerm reg' B = some TB) ∧
      (ensureCorrectTerminal now ⟨some reg, some L, stores, pref⟩).2.stores TB.orchestrator =
        TB.stateData) := by
  constructor
  · intro reg L stores pref targetKey target hne hnorm hfound hnotactive
    have hsf := snapshot_frame now ⟨some reg, some L, stores, pref⟩
    obtain ⟨reg1, hreg1, hak1⟩ :=
      snapshot_registry now ⟨some reg, some L, stores, pref⟩ reg rfl
    unfold handleChange
    rw [if_neg hne]
    simp only [hnorm, hfound]
    rw [if_neg (fun h => hnotactive h)]
    simp only [hreg1]
    exact ⟨trivial, hsf.1, hsf.2.1, ⟨_, rfl, rfl⟩⟩
  · intro reg L stores pref A B TA TB σ hak hlk hAB hlkA hlkB hread hkind hknorm
    unfold ensureCorrectTerminal
    simp only [hak, hlk]
    have hne : ¬((some A : Option String) = some B) := by
      intro h
      exact hAB (Option.some.inj h)
    rw [if_neg hne]
    simp only [hlkA, hread]
    have hlk1B : lookupTerm (setTermState reg A fun t =>
        { t with stateData := some σ, lastUsed := now }) B = some TB := by
      rw [lookupTerm_setTermState, if_neg (fun h => hAB h.symm), hlkB]
    simp only [hlk1B]
    refine ⟨trivial, trivial, ⟨_, rfl, ?_, hlk1B⟩, ?_⟩
    · rw [lookupTerm_setTermState, if_pos rfl, hlkA]
      rfl
    · simp [writeStoreFile, hknorm, hkind]

/-- Witness for C5 at concrete inputs: terminals `t1` (claude, live) and
`t2` (codex, saved state `tok2`); `!!tchange t2` leaves the live session
bound to `t1`; the next job's reconciliation tears it down, snapshots
`t1`'s state and seeds the codex store with `tok2`. -/
theorem c5_witness :
    (handleChange 5 ⟨some ⟨some "t1", 2, [("t1", ⟨"claude", none, "Claude #1", 1⟩),
        ("t2", ⟨"codex", some "tok2", "Codex #2", 2⟩)]⟩,
      some ⟨some "t1", "claude"⟩, (fun k => if k = "claude" then some "tok1" else none),
      "claude"⟩ "t2").2.live = some ⟨some "t1", "claude"⟩ ∧
    (ensureCorrectTerminal 6 ⟨some ⟨some "t2", 2, [("t1", ⟨"claude", none, "Claude #1", 1⟩),
        ("t2", ⟨"codex", some "tok2", "Codex #2", 2⟩)]⟩,
      some ⟨some "t1", "claude"⟩, (fun k => if k = "claude" then some "tok1" else none),
      "codex"⟩).2.live = none ∧
    (ensureCorrectTerminal 6 ⟨some ⟨some "t2", 2, [("t1", ⟨"claude", none, "Claude #1", 1⟩),
        ("t2", ⟨"codex", some "tok2", "Codex #2", 2⟩)]⟩,
      some ⟨some "t1", "claude"⟩, (fun k => if k = "claude" then some "tok1" else none),
      "codex"⟩).2.stores "codex" = some "tok2" := by
  refine ⟨?_, ?_, ?_⟩
  · exact ((c5_lazy_terminal_switch 5).1 _ _ _ "claude" "t2" ⟨"codex", some "tok2", "Codex #2", 2⟩
      (by decide) (by decide) (by decide) (by decide)).2.1
  · exact ((c5_lazy_terminal_switch 6).2 _ _ _ "codex" "t1" "t2"
      ⟨"claude", none, "Claude #1", 1⟩ ⟨"codex", some "tok2", "Codex #2", 2⟩ "tok1"
      rfl rfl (by decide) (by decide) (by decide) (by decide) (by decide) (by decide)).2.1
  · exact ((c5_lazy_terminal_switch 6).2 _ _ _ "codex" "t1" "t2"
      ⟨"claude", none, "Claude #1", 1⟩ ⟨"codex", some "tok2", "Codex #2", 2⟩ "tok1"
      rfl rfl (by decide) (by decide) (by decide) (by decide) (by decide) (by decide)).2.2.2

/-! ## Per-chat dispatch queue as a transition system
(`MessageHandler.handleMessage` lines 1509-1523 and
`MessageHandler.runQueue` lines 1339-1434 of src/src/outbox/dispatcher.js)

The cooperative async semantics is modelled as a labelled transition
system whose atomic steps are the synchronous segments between `await`
points:

* `enqueue`  — `handleMessage`: `queue.push(job)`, and when
  `processingQueue.get(from)` is false, set it and spawn `runQueue`
  (all synchronous, hence one step);
* `startJob` — the run loop pops the head job (`queue.shift()`) and
  enters `processOneMessage` (synchronous up to its first `await`);
* `finishJob` — the popped job's processing, reply routing and error
  handling complete, the loop returns to the `while` condition;
* `stopRunner` — the loop observes an empty queue and the `finally`
  block clears the processing flag (synchronous, hence one step).

Jobs for *different* chats interleave freely because steps of different
chats touch disjoint per-chat state. -/

namespace QueueModel

/-- Chats are identified by their id. -/
abbrev Chat := Nat

/-- Trace events: job `j` enqueued / started / finished on chat `c`. -/
inductive Event
| enq (c : Chat) (j : Nat)
| start (c : Chat) (j : Nat)
| fin (c : Chat) (j : Nat)
deriving DecidableEq

/-- Global handler state: `pending` is `this.pendingJobs`, `processing`
is `this.processingQueue`, `running c` is the job currently inside
`processOneMessage` for chat `c` (if any), plus the event trace. -/
structure St where
  pending : Chat → List Nat
  processing : Chat → Bool
  running : Chat → Option Nat
  trace : List Event

/-- Pointwise update of a per-chat map. -/
def upd {α : Type} (f : Chat → α) (c : Chat) (v : α) : Chat → α :=
  fun x => if x = c then v else f x

/-- Initial state: no queues, no runners. -/
def init : St := ⟨fun _ => [], fun _ => false, fun _ => none, []⟩

/-- The atomic steps of the queue machinery (see the section comment). -/
inductive Step : St → St → Prop
| enqueue (s : St) (c : Chat) (j : Nat) :
    Step s ⟨upd s.pending c (s.pending c ++ [j]), upd s.processing c true,
      s.running, s.trace ++ [.enq c j]⟩
| startJob (s : St) (c : Chat) (j : Nat) (rest : List Nat)
    (hp : s.processing c = true) (hr : s.running c = none)
    (hq : s.pending c = j :: rest) :
    Step s ⟨upd s.pending c rest, s.processing, upd s.running c (some j),
      s.trace ++ [.start c j]⟩
| finishJob (s : St) (c : Chat) (j : Nat) (hr : s.running c = some j) :
    Step s ⟨s.pending, s.processing, upd s.running c none, s.trace ++ [.fin c j]⟩
| stopRunner (s : St) (c : Chat) (hp : s.processing c = true)
    (hr : s.running c = none) (hq : s.pending c = []) :
    Step s ⟨s.pending, upd s.processing c false, s.running, s.trace⟩

/-- Reachability from the initial state. -/
def Reachable (s : St) : Prop := Relation.ReflTransGen Step init s

/-- The chat-`c` subsequence of enqueued job ids in a trace. -/
def enqSeq (c : Chat) (t : List Event) : List Nat :=
  t.filterMap fun e =>
    match e with
    | .enq c' j => if c' = c then some j else none
    | _ => none

/-- The chat-`c` subsequence of started job ids in a trace. -/
def startSeq (c : Chat) (t : List Event) : List Nat :=
  t.filterMap fun e =>
    match e with
    | .start c' j => if c' = c then some j else none
    | _ => none

/-- The chat-`c` subsequence of finished job ids in a trace. -/
def finSeq (c : Chat) (t : List Event) : List Nat :=
  t.filterMap fun e =>
    match e with
    | .fin c' j => if c' = c then some j else none
    | _ => none

/-- The per-chat queue invariant: started jobs followed by the still
pending ones are exactly the enqueued jobs, in order (FIFO), and starts
and finishes strictly alternate (a new start only after the previous
job's finish — serialization). -/
def Inv (s : St) : Prop :=
  ∀ c : Chat,
    startSeq c s.trace ++ s.pending c = enqSeq c s.trace ∧
    (s.running c = none → startSeq c s.trace = finSeq c s.trace) ∧
    (∀ j, s.running c = some j → startSeq c s.trace = finSeq c s.trace ++ [j])

theorem enqSeq_append (c : Chat) (t₁ t₂ : List Event) :
    enqSeq c (t₁ ++ t₂) = enqSeq c t₁ ++ enqSeq c t₂ := by
  simp [enqSeq]

theorem startSeq_append (c : Chat) (t₁ t₂ : List Event) :
    startSeq c (t₁ ++ t₂) = startSeq c t₁ ++ startSeq c t₂ := by
  simp [startSeq]

theorem finSeq_append (c : Chat) (t₁ t₂ : List Event) :
    finSeq c (t₁ ++ t₂) = finSeq c t₁ ++ finSeq c t₂ := by
  simp [finSeq]

@[simp] theorem enqSeq_single_enq (c c' : Chat) (j : Nat) :
    enqSeq c [.enq c' j] = if c' = c then [j] else [] := by
  by_cases h : c' = c <;> simp [enqSeq, h]

@[simp] theorem enqSeq_single_start (c c' : Chat) (j : Nat) :
    enqSeq c [.start c' j] = [] := by simp [enqSeq]

@[simp] theorem enqSeq_single_fin (c c' : Chat) (j : Nat) :
    enqSeq c [.fin c' j] = [] := by simp [enqSeq]

@[simp] theorem startSeq_single_enq (c c' : Chat) (j : Nat) :
    startSeq c [.enq c' j] = [] := by simp [startSeq]

@[simp] theorem startSeq_single_start (c c' : Chat) (j : Nat) :
    startSeq c [.start c' j] = if c' = c then [j] else [] := by
  by_cases h : c' = c <;> simp [startSeq, h]

@[simp] theorem startSeq_single_fin (c c' : Chat) (j : Nat) :
    startSeq c [.fin c' j] = [] := by simp [startSeq]

@[simp] theorem finSeq_single_enq (c c' : Chat) (j : Nat) :
    finSeq c [.enq c' j] = [] := by simp [finSeq]

@[simp] theorem finSeq_single_start (c c' : Chat) (j : Nat) :
    finSeq c [.start c' j] = [] := by simp [finSeq]

@[simp] theorem finSeq_single_fin (c c' : Chat) (j : Nat) :
    finSeq c [.fin c' j] = if c' = c then [j] else [] := by
  by_cases h : c' = c <;> simp [finSeq, h]

/-- The invariant holds initially. -/
theorem inv_init : Inv init := by
  intro c
  refine ⟨rfl, fun _ => rfl, fun j h => ?_⟩
  simp [init] at h

/-- The invariant is preserved by each step. -/
theorem inv_step {s s' : St} (hstep : Step s s') (hinv : Inv s) : Inv s' := by
  cases hstep with
  | enqueue c j =>
      intro c'
      obtain ⟨hfifo, hnone, hsome⟩ := hinv c'
      by_cases hc : c' = c
      · subst hc
        refine ⟨?_, ?_, ?_⟩
        · simp only [enqSeq_append, startSeq_append, enqSeq_single_enq, startSeq_single_enq,
            upd, if_pos rfl]
          simp [← hfifo]
        · intro h
          simp only [startSeq_append, finSeq_append, startSeq_single_enq, finSeq_single_enq]
          simp [hnone h]
        · intro j' h
          simp only [startSeq_append, finSeq_append, startSeq_single_enq, finSeq_single_enq]
          simp [hsome j' h]
      · have hc2 : ¬(c = c') := fun h => hc h.symm
        refine ⟨?_, ?_, ?_⟩
        · simp only [enqSeq_append, startSeq_append, enqSeq_single_enq, startSeq_single_enq,
            upd, if_neg hc, if_neg hc2]
          simp [hfifo]
        · intro h
          simp only [startSeq_append, finSeq_append, startSeq_single_enq, finSeq_single_enq]
          simp [hnone h]
        · intro j' h
          simp only [startSeq_append, finSeq_append, startSeq_single_enq, finSeq_single_enq]
          simp [hsome j' h]
  | startJob c j rest hp hr hq =>
      intro c'
      obtain ⟨hfifo, hnone, hsome⟩ := hinv c'
      by_cases hc : c' = c
      · subst hc
        rw [hq] at hfifo
        refine ⟨?_, ?_, ?_⟩
        · simp only [enqSeq_append, startSeq_append, enqSeq_single_start, startSeq_single_start,
            upd, if_pos rfl]
          simp [← hfifo]
        · intro h
          simp only [upd, if_pos rfl] at h
          simp at h
        · intro j' h
          simp only [upd, if_pos rfl] at h
          injection h with h
          subst h
          simp only [startSeq_append, finSeq_append, startSeq_single_start, finSeq_single_start,
            if_pos rfl]
          simp [hnone hr]
      · have hc2 : ¬(c = c') := fun h => hc h.symm
        refine ⟨?_, ?_, ?_⟩
        · simp only [enqSeq_append, startSeq_append, enqSeq_single_start, startSeq_single_start,
            upd, if_neg hc, if_neg hc2]
          simp [hfifo]
        · intro h
          simp only [upd, if_neg hc] at h
          simp only [startSeq_append, finSeq_append, startSeq_single_start, finSeq_single_start,
            if_neg hc2]
          simp [hnone h]
        · intro j' h
          simp only [upd, if_neg hc] at h
          simp only [startSeq_append, finSeq_append, startSeq_single_start, finSeq_single_start,
            if_neg hc2]
          simp [hsome j' h]
  | finishJob c j hr =>
      intro c'
      obtain ⟨hfifo, hnone, hsome⟩ := hinv c'
      by_cases hc : c' = c
      · subst hc
        refine ⟨?_, ?_, ?_⟩
        · simp only [enqSeq_append, startSeq_append, enqSeq_single_fin, startSeq_single_fin]
          simp [hfifo]
        · intro _
          simp only [startSeq_append, finSeq_append, startSeq_single_fin, finSeq_single_fin,
            if_pos rfl]
          simp [hsome j hr]
        · intro j' h
          simp only [upd, if_pos rfl] at h
          simp at h
      · have hc2 : ¬(c = c') := fun h => hc h.symm
        refine ⟨?_, ?_, ?_⟩
        · simp only [enqSeq_append, startSeq_append, enqSeq_single_fin, startSeq_single_fin]
          simp [hfifo]
        · intro h
          simp only [upd, if_neg hc] at h
          simp only [startSeq_append, finSeq_append, startSeq_single_fin, finSeq_single_fin,
            if_neg hc2]
          simp [hnone h]
        · intro j' h
          simp only [upd, if_neg hc] at h
          simp only [startSeq_append, finSeq_append, startSeq_single_fin, finSeq_single_fin,
            if_neg hc2]
          simp [hsome j' h]
  | stopRunner c hp hr hq =>
      intro c'
      exact hinv c'


/-- Every reachable state satisfies the invariant. -/
theorem inv_reachable {s : St} (h : Reachable s) : Inv s := by
  induction h with
  | refl => exact inv_init
  | tail _ hstep ih => exact inv_step hstep ih

/-- A concrete interleaved run: two chats enqueue one job each, the two
jobs overlap in time (both started before either finishes). -/
def interleavedTrace : List Event :=
  [.enq 0 10, .enq 1 20, .start 0 10, .start 1 20, .fin 1 20, .fin 0 10]

/-- The intermediate states of the interleaved run. -/
def q1 : St :=
  ⟨upd init.pending 0 (init.pending 0 ++ [10]), upd init.processing 0 true,
    init.running, init.trace ++ [.enq 0 10]⟩

def q2 : St :=
  ⟨upd q1.pending 1 (q1.pending 1 ++ [20]), upd q1.processing 1 true,
    q1.running, q1.trace ++ [.enq 1 20]⟩

def q3 : St :=
  ⟨upd q2.pending 0 [], q2.processing, upd q2.running 0 (some 10),
    q2.trace ++ [.start 0 10]⟩

def q4 : St :=
  ⟨upd q3.pending 1 [], q3.processing, upd q3.running 1 (some 20),
    q3.trace ++ [.start 1 20]⟩

def q5 : St :=
  ⟨q4.pending, q4.processing, upd q4.running 1 none, q4.trace ++ [.fin 1 20]⟩

/-- The state reached by the interleaved run. -/
def q6 : St :=
  ⟨q5.pending, q5.processing, upd q5.running 0 none, q5.trace ++ [.fin 0 10]⟩

/-- The interleaved run is reachable: enqueue on chats 0 and 1, start
both jobs, finish them in the opposite order. -/
theorem reachable_q6 : Reachable q6 := by
  have s1 : Step init q1 := Step.enqueue init 0 10
  have s2 : Step q1 q2 := Step.enqueue q1 1 20
  have s3 : Step q2 q3 := Step.startJob q2 0 10 [] rfl rfl rfl
  have s4 : Step q3 q4 := Step.startJob q3 1 20 [] rfl rfl rfl
  have s5 : Step q4 q5 := Step.finishJob q4 1 20 rfl
  have s6 : Step q5 q6 := Step.finishJob q5 0 10 rfl
  exact Relation.ReflTransGen.tail (Relation.ReflTransGen.tail (Relation.ReflTransGen.tail
    (Relation.ReflTransGen.tail (Relation.ReflTransGen.tail (Relation.ReflTransGen.tail
      Relation.ReflTransGen.refl s1) s2) s3) s4) s5) s6

end QueueModel

end ConversaRelay

namespace ConversaRelay

open QueueModel

/-- **C1.** In every reachable state of the queue system and for every
chat: the started jobs followed by the still-pending ones are exactly
the enqueued jobs in submission order (strict FIFO, no skipping or
reordering), and starts/finishes strictly alternate — a job starts only
when no job of the same chat is running, so jobs of one chat never
overlap and the next job is popped only after the previous one finished
(error handling included).  Jobs of different chats may interleave: a
run in which two chats' jobs overlap in time is reachable. -/
theorem c1_per_chat_fifo_serialized :
    (∀ s : St, Reachable s → ∀ c : Chat,
      startSeq c s.trace ++ s.pending c = enqSeq c s.trace ∧
      (s.running c = none → startSeq c s.trace = finSeq c s.trace) ∧
      (∀ j, s.running c = some j → startSeq c s.trace = finSeq c s.trace ++ [j])) ∧
    (∃ s : St, Reachable s ∧ s.trace = interleavedTrace) := by
  constructor
  · intro s hs c
    exact inv_reachable hs c
  · exact ⟨q6, reachable_q6, rfl⟩

/-- Witness for C1 at a concrete reachable state: in the interleaved
run, chat 0's started jobs plus its pending jobs equal its enqueued
jobs, the start/finish projections balance, and the overlapping starts
are visible in the trace. -/
theorem c1_witness :
    (startSeq 0 q6.trace ++ q6.pending 0 = enqSeq 0 q6.trace) ∧
    (q6.running 0 = none → startSeq 0 q6.trace = finSeq 0 q6.trace) ∧
    startSeq 0 q6.trace = [10] ∧ q6.trace = interleavedTrace := by
  have h := c1_per_chat_fifo_serialized.1 q6 reachable_q6 0
  exact ⟨h.1, h.2.1, by rfl, by rfl⟩

/-! ## Outbox claim-by-rename mutual exclusion
(`OutboxDispatcher.processFile` lines 81-121 and
`OutboxDispatcher.moveToFailed` lines 166-192 of
src/src/outbox/dispatcher.js)

One written envelope file, two dispatcher runs `A`/`B` (distinct
`process.pid`s).  Atomic steps are the individual file-system
operations: the claim `fs.rename(sourcePath, processingPath)` (atomic;
ENOENT means the other run already claimed), the transport call, the
atomic `markProcessed` rename, and `moveToFailed`'s two separate
operations `fs.writeFile(failedPath, ...)` then
`fs.unlink(processingPath)`.  The retry re-queue path
(`retryOrFail` with attempts left) stays inside the pending directory
and is modelled in `OutboxRetry`; here the failing send is one with its
retry budget exhausted. -/

namespace OutboxLock

/-- Program counter of one run's `processFile` on this envelope. -/
inductive PC
| idle
| claimed
| delivered
| sendFailed
| failWritten
| done
| lost
deriving DecidableEq

/-- Where copies of the envelope live, plus both runs' positions:
`pend` — the original `.json` in the pending directory; `procA`/`procB`
— the run's `.processing.<pid>` file (also physically in the pending
directory); `processed`/`failed` — a copy in that directory;
`delivA`/`delivB` — the run called the transport for this file. -/
structure LState where
  pend : Bool
  procA : Bool
  procB : Bool
  processed : Bool
  failed : Bool
  pcA : PC
  pcB : PC
  delivA : Bool
  delivB : Bool
deriving DecidableEq

/-- The envelope has just been written (temp-file-then-rename, so its
creation is atomic): one pending copy, no runs started. -/
def initL : LState := ⟨true, false, false, false, false, .idle, .idle, false, false⟩

/-- Steps of the two interleaved runs; `sA`/`sB` are the transport
outcomes for run A / run B. -/
inductive LStep (sA sB : Bool) : LState → LState → Prop
| claimOkA (s : LState) (hpc : s.pcA = .idle) (hp : s.pend = true) :
    LStep sA sB s { s with pend := false, procA := true, pcA := .claimed }
| claimMissA (s : LState) (hpc : s.pcA = .idle) (hp : s.pend = false) :
    LStep sA sB s { s with pcA := .lost }
| sendOkA (s : LState) (hpc : s.pcA = .claimed) (hok : sA = true) :
    LStep sA sB s { s with delivA := true, pcA := .delivered }
| sendErrA (s : LState) (hpc : s.pcA = .claimed) (hok : sA = false) :
    LStep sA sB s { s with pcA := .sendFailed }
| markProcessedA (s : LState) (hpc : s.pcA = .delivered) :
    LStep sA sB s { s with procA := false, processed := true, pcA := .done }
| writeFailedA (s : LState) (hpc : s.pcA = .sendFailed) :
    LStep sA sB s { s with failed := true, pcA := .failWritten }
| unlinkA (s : LState) (hpc : s.pcA = .failWritten) :
    LStep sA sB s { s with procA := false, pcA := .done }
| claimOkB (s : LState) (hpc : s.pcB = .idle) (hp : s.pend = true) :
    LStep sA sB s { s with pend := false, procB := true, pcB := .claimed }
| claimMissB (s : LState) (hpc : s.pcB = .idle) (hp : s.pend = false) :
    LStep sA sB s { s with pcB := .lost }
| sendOkB (s : LState) (hpc : s.pcB = .claimed) (hok : sB = true) :
    LStep sA sB s { s with delivB := true, pcB := .delivered }
| sendErrB (s : LState) (hpc : s.pcB = .claimed) (hok : sB = false) :
    LStep sA sB s { s with pcB := .sendFailed }
| markProcessedB (s : LState) (hpc : s.pcB = .delivered) :
    LStep sA sB s { s with procB := false, processed := true, pcB := .done }
| writeFailedB (s : LState) (hpc : s.pcB = .sendFailed) :
    LStep sA sB s { s with failed := true, pcB := .failWritten }
| unlinkB (s : LState) (hpc : s.pcB = .failWritten) :
    LStep sA sB s { s with procB := false, pcB := .done }

/-- Reachability of the two-run system. -/
def ReachableL (sA sB : Bool) (s : LState) : Prop :=
  Relation.ReflTransGen (LStep sA sB) initL s

/-- A run has successfully claimed the file at some point. -/
def advanced (pc : PC) : Prop := pc ≠ .idle ∧ pc ≠ .lost

/-- The envelope is present in the pending directory (as the `.json`
file or as either run's processing file). -/
def inPending (s : LState) : Bool := s.pend || s.procA || s.procB

/-- In how many of the three locations the envelope currently exists. -/
def locCount (s : LState) : Nat :=
  (if inPending s = true then 1 else 0) + (if s.processed = true then 1 else 0) +
    (if s.failed = true then 1 else 0)

/-- The inductive invariant of the two-run system. -/
def InvL (s : LState) : Prop :=
  (s.pend = true → (s.pcA = .idle ∨ s.pcA = .lost) ∧ (s.pcB = .idle ∨ s.pcB = .lost)) ∧
  (s.procA = true ↔
    (s.pcA = .claimed ∨ s.pcA = .delivered ∨ s.pcA = .sendFailed ∨ s.pcA = .failWritten)) ∧
  (s.procB = true ↔
    (s.pcB = .claimed ∨ s.pcB = .delivered ∨ s.pcB = .sendFailed ∨ s.pcB = .failWritten)) ∧
  ¬(advanced s.pcA ∧ advanced s.pcB) ∧
  (s.processed = true ↔
    ((s.pcA = .done ∧ s.delivA = true) ∨ (s.pcB = .done ∧ s.delivB = true))) ∧
  (s.failed = true ↔
    (s.pcA = .failWritten ∨ (s.pcA = .done ∧ s.delivA = false) ∨
      s.pcB = .failWritten ∨ (s.pcB = .done ∧ s.delivB = false))) ∧
  (s.delivA = true → (s.pcA = .delivered ∨ s.pcA = .done)) ∧
  (s.delivB = true → (s.pcB = .delivered ∨ s.pcB = .done)) ∧
  (s.pcA = .delivered → s.delivA = true) ∧
  (s.pcB = .delivered → s.delivB = true) ∧
  ((s.pcA = .idle ∨ s.pcA = .lost) → (s.pcB = .idle ∨ s.pcB = .lost) → s.pend = true)

theorem invL_init : InvL initL := by
  unfold InvL initL advanced
  simp

theorem invL_step {sA sB : Bool} {s s' : LState} (hstep : LStep sA sB s s')
    (hinv : InvL s) : InvL s' := by
  obtain ⟨h1, h2, h3, h4, h5, h6, h7, h8, h9, h10, h11⟩ := hinv
  cases hstep with
  | claimOkA hpc hp =>
      have hB := (h1 hp).2
      unfold InvL advanced at *
      simp_all <;> tauto
  | claimMissA hpc hp =>
      unfold InvL advanced at *
      simp_all <;> tauto
  | sendOkA hpc hok =>
      unfold InvL advanced at *
      simp_all <;> tauto
  | sendErrA hpc hok =>
      unfold InvL advanced at *
      simp_all <;> tauto
  | markProcessedA hpc =>
      have hdA := h9 hpc
      unfold InvL advanced at *
      simp_all <;> tauto
  | writeFailedA hpc =>
      unfold InvL advanced at *
      simp_all <;> tauto
  | unlinkA hpc =>
      have hdA : s.delivA = false := by
        cases hd : s.delivA with
        | false => rfl
        | true =>
            rcases h7 hd with h | h <;> rw [hpc] at h <;> exact absurd h (by simp)
      unfold InvL advanced at *
      simp_all <;> tauto
  | claimOkB hpc hp =>
      have hA := (h1 hp).1
      unfold InvL advanced at *
      simp_all <;> tauto
  | claimMissB hpc hp =>
      unfold InvL advanced at *
      simp_all <;> tauto
  | sendOkB hpc hok =>
      unfold InvL advanced at *
      simp_all <;> tauto
  | sendErrB hpc hok =>
      unfold InvL advanced at *
      simp_all <;> tauto
  | markProcessedB hpc =>
      have hdB := h10 hpc
      unfold InvL advanced at *
      simp_all <;> tauto
  | writeFailedB hpc =>
      unfold InvL advanced at *
      simp_all <;> tauto
  | unlinkB hpc =>
      have hdB : s.delivB = false := by
        cases hd : s.delivB with
        | false => rfl
        | true =>
            rcases h8 hd with h | h <;> rw [hpc] at h <;> exact absurd h (by simp)
      unfold InvL advanced at *
      simp_all <;> tauto

theorem invL_reachable {sA sB : Bool} {s : LState} (h : ReachableL sA sB s) : InvL s := by
  induction h with
  | refl => exact invL_init
  | tail _ hstep ih => exact invL_step hstep ih

/-- From the invariant: outside the `moveToFailed` window (failed record
written, processing file not yet unlinked) the envelope exists in
exactly one location. -/
theorem invL_locCount {s : LState} (hinv : InvL s)
    (hA : s.pcA ≠ PC.failWritten) (hB : s.pcB ≠ PC.failWritten) :
    locCount s = 1 := by
  obtain ⟨h1, h2, h3, h4, h5, h6, h7, h8, h9, h10, h11⟩ := hinv
  unfold locCount inPending
  unfold advanced at h4
  cases hdA : s.delivA <;> cases hdB : s.delivB <;> cases hpA : s.pcA <;> cases hpB : s.pcB <;>
    simp_all

end OutboxLock

end ConversaRelay

namespace ConversaRelay

open OutboxLock

/-- The states of the failing run A used in the C2 counterexample. -/
def l1 : LState := { initL with pend := false, procA := true, pcA := .claimed }

def l2 : LState := { l1 with pcA := .sendFailed }

/-- `moveToFailed` has written the failed record but not yet unlinked
the processing file. -/
def l3 : LState := { l2 with failed := true, pcA := .failWritten }

/-- Both operations of `moveToFailed` done. -/
def l4 : LState := { l3 with procA := false, pcA := .done }

theorem reachable_l3 : ReachableL false false l3 :=
  Relation.ReflTransGen.tail (Relation.ReflTransGen.tail (Relation.ReflTransGen.tail
    Relation.ReflTransGen.refl
    (LStep.claimOkA initL rfl rfl))
    (LStep.sendErrA l1 rfl rfl))
    (LStep.writeFailedA l2 rfl)

theorem reachable_l4 : ReachableL false false l4 :=
  Relation.ReflTransGen.tail reachable_l3 (LStep.unlinkA l3 rfl)

/-- **C2 counterexample.** During `moveToFailed` — after
`fs.writeFile(failedPath, ...)` and before `fs.unlink(processingPath)` —
the envelope exists in *two* locations at once: the failed record is on
disk while the processing-named copy is still in the pending directory.
The reachable state `l3` refutes "an envelope file exists in exactly one
of the pending, processed, or failed locations at every point". -/
theorem c2_counterexample :
    ReachableL false false l3 ∧ l3.procA = true ∧ l3.failed = true ∧ locCount l3 = 2 :=
  ⟨reachable_l3, rfl, rfl, by decide⟩

/-- **C2 (amended).** In every reachable state of two dispatcher runs on
one written envelope: at most one run ever delivers the file (the
pending→processing rename is the mutual-exclusion step, and the run
whose rename fails because the source vanished delivers nothing), and
outside the transient `moveToFailed` window — failed record written,
processing file not yet unlinked — the envelope exists in exactly one of
the pending, processed, or failed locations. -/
theorem c2_rename_lock (sA sB : Bool) (s : LState) (h : ReachableL sA sB s) :
    ¬(s.delivA = true ∧ s.delivB = true) ∧
    (s.pcA = PC.lost → s.delivA = false) ∧
    (s.pcA ≠ PC.failWritten → s.pcB ≠ PC.failWritten → locCount s = 1) := by
  have hinv := invL_reachable h
  obtain ⟨h1, h2, h3, h4, h5, h6, h7, h8, h9, h10, h11⟩ := hinv
  refine ⟨?_, ?_, ?_⟩
  · rintro ⟨hdA, hdB⟩
    apply h4
    constructor
    · rcases h7 hdA with hp | hp <;> rw [hp] <;> exact ⟨by simp, by simp⟩
    · rcases h8 hdB with hp | hp <;> rw [hp] <;> exact ⟨by simp, by simp⟩
  · intro hlost
    cases hd : s.delivA with
    | false => rfl
    | true => rcases h7 hd with hp | hp <;> rw [hlost] at hp <;> exact absurd hp (by simp)
  · intro hA hB
    exact invL_locCount ⟨h1, h2, h3, h4, h5, h6, h7, h8, h9, h10, h11⟩ hA hB

/-- Witness for C2 at the concrete completed run: after `moveToFailed`
finishes, run A delivered nothing twice with run B and the envelope is
in exactly one location again. -/
theorem c2_witness :
    ¬(l4.delivA = true ∧ l4.delivB = true) ∧ locCount l4 = 1 := by
  have h := c2_rename_lock false false l4 reachable_l4
  exact ⟨h.1, h.2.2 (by decide) (by decide)⟩

/-! ## Orchestrator switch and handoff note
(`SwitchHandler.performSwitch` lines 253-290 and
`SwitchHandler.buildHandoffNote` lines 295-366 of
src/src/orchestrator/switch-handler.js;
`SessionManager.resetStoredState` src/unnamed/part_004 lines 121-142;
`MessageHandler.addSystemNote`/`consumeSystemNotes`/`formatSystemNotes`
and the prompt assembly, src/src/outbox/dispatcher.js lines 507-530 and
1236-1244) -/

namespace SwitchModel

open OutboxCommon RunQueueModel TaskModel ForegroundDedup

/-- One row of `db.getMessages(phoneNumber, n)`: the logged message text
with its direction (`incoming` = user, `outgoing` = assistant).  Rows
come newest-first (`ORDER BY created_at DESC`). -/
structure MsgRow where
  message : String
  direction : String
deriving DecidableEq

/-- JS `text.replace(/\s+/g, ' ')`: collapse every whitespace run into
one space. -/
def collapseWs (s : String) : String :=
  ((s.toList.foldl
      (fun (acc : List Char × Bool) c =>
        if c.isWhitespace then (if acc.2 then acc.1 else acc.1 ++ [' '], true)
        else (acc.1 ++ [c], false))
      ([], false)).1).asString

/-- JS `Array.prototype.join('\n')`. -/
def joinWithNl : List String → String
| [] => ""
| [x] => x
| x :: xs => x ++ "\n" ++ joinWithNl xs

/-- The per-row rendering of the `buildHandoffNote` loop body (lines
317-338): `none` means the row is skipped (empty, a switch command, or
a switch-confirmation message); otherwise the trimmed, collapsed,
possibly truncated text with the `Kullanıcı:` / `Asistan:` speaker
prefix. -/
def lineOf (maxCharsPerLine : Nat) (row : MsgRow) : Option String :=
  let text := jsTrim row.message
  if text = "" then none
  else
    let lower := jsToLower text
    if strStartsWith lower "!!switch" ∨ strStartsWith lower "!!asistan" ∨
        strStartsWith lower "!!ai" then none
    else if strIncludes lower "orkestratör değiştirildi" then none
    else
      let text2 := jsTrim (collapseWs text)
      let text3 :=
        if text2.length > maxCharsPerLine then ((text2.toList.take maxCharsPerLine).asString) ++ "..."
        else text2
      some ((if row.direction = "incoming" then "Kullanıcı" else "Asistan") ++ ": " ++ text3)

/-- The selection loop of `buildHandoffNote` (lines 311-350): `total`
starts at 200 (header reserve); a line is pushed only when it still fits
in `maxTotalChars`, and the loop stops at `messageLimit` lines. -/
def noteLoop (messageLimit maxTotalChars maxCharsPerLine : Nat) :
    List MsgRow → Nat → Nat → List String
| [], _, _ => []
| row :: rest, total, count =>
    match lineOf maxCharsPerLine row with
    | none => noteLoop messageLimit maxTotalChars maxCharsPerLine rest total count
    | some line =>
        if total + line.length + 1 > maxTotalChars then []
        else if count + 1 ≥ messageLimit then [line]
        else
          line :: noteLoop messageLimit maxTotalChars maxCharsPerLine rest
            (total + line.length + 1) (count + 1)

/-- `buildHandoffNote(phoneNumber, from, to)` (lines 295-366): the
selected lines, scanned newest-first, are reversed into chronological
order and wrapped in the header/footer. -/
def buildHandoffNote (messageLimit maxTotalChars maxCharsPerLine : Nat)
    (rows : List MsgRow) (fromO toO : String) : String :=
  if rows.length = 0 then
    "ÖNEMLİ BAĞLAM: Kullanıcı " ++ fromO ++ " asistanından sana (" ++ toO ++
      ") geçiş yaptı. Önceki sohbet kaydı bulunamadı. Kendinizi tanıtın ve devam edin."
  else
    if (noteLoop messageLimit maxTotalChars maxCharsPerLine rows 200 0).length = 0 then
      "ÖNEMLİ BAĞLAM: Kullanıcı " ++ fromO ++ " asistanından sana (" ++ toO ++
        ") geçiş yaptı. Önceki sohbet özeti oluşturulamadı. Kendinizi tanıtın ve devam edin."
    else
      "ÖNEMLİ BAĞLAM: Kullanıcı " ++ fromO ++ " asistanından sana (" ++ toO ++
        ") geçiş yaptı. Aşağıda önceki sohbetin özeti var. BU BİLGİLERİ HATIRLA ve sohbete kaldığı yerden devam et:\n\n--- ÖNCEKİ SOHBET (" ++
        toString (noteLoop messageLimit maxTotalChars maxCharsPerLine rows 200 0).reverse.length ++
        " mesaj) ---\n" ++
        joinWithNl (noteLoop messageLimit maxTotalChars maxCharsPerLine rows 200 0).reverse ++
        "\n--- SOHBET SONU ---\n\nŞimdi kullanıcının yeni mesajına cevap ver. Önceki konuşmayı biliyormuş gibi davran."

/-- The switch-relevant state for one owner: whether a live session
exists, the per-orchestrator-kind resume store entries, and the pending
system notes of the chat. -/
structure SwState where
  live : Bool
  stores : String → Option String
  systemNotes : List String

/-- `SessionManager.resetStoredState(phoneNumber, orchestratorType)`
(src/unnamed/part_004 lines 121-142): delete the owner's entry from the
given kind's store file (no-op for an unknown kind). -/
def resetStoredState (stores : String → Option String) (orchestratorType : String) :
    String → Option String :=
  if jsTrim (jsToLower orchestratorType) = "claude" ∨
      jsTrim (jsToLower orchestratorType) = "codex" ∨
      jsTrim (jsToLower orchestratorType) = "gemini" then
    fun k => if k = jsTrim (jsToLower orchestratorType) then none else stores k
  else stores

/-- `MessageHandler.addSystemNote` (dispatcher.js lines 507-517): trim,
drop empty, append, keep the last 10. -/
def addSystemNote (notes : List String) (text : String) : List String :=
  let note := jsTrim text
  if note = "" then notes
  else
    let queue := notes ++ [note]
    if queue.length > 10 then queue.drop (queue.length - 10) else queue

/-- `SwitchHandler.performSwitch(phoneNumber, from, to)` (lines
253-281): end the live session, clear the *new* orchestrator's stored
resume state, build the handoff note and queue it as a system note. -/
def performSwitch (st : SwState) (messageLimit maxTotalChars maxCharsPerLine : Nat)
    (rows : List MsgRow) (fromO toO : String) : SwState × String :=
  let st1 : SwState := { st with live := false }
  let st2 : SwState := { st1 with stores := resetStoredState st1.stores toO }
  let note := buildHandoffNote messageLimit maxTotalChars maxCharsPerLine rows fromO toO
  ({ st2 with systemNotes := addSystemNote st2.systemNotes note }, note)

/-- `MessageHandler.formatSystemNotes` (dispatcher.js lines 526-530). -/
def formatSystemNotes (notes : List String) : String :=
  if notes.length = 0 then ""
  else
    "\n\n[SISTEM MESAJLARI]\n" ++ joinWithNl (notes.map fun n => "- " ++ n) ++
      "\n[/SISTEM MESAJLARI]\n"

/-- The prompt assembly of `processOneMessage` (dispatcher.js lines
1236-1244): base prompt, timestamp block, feedback-expectation block,
the consumed system notes, the background-task summary (if any), the
outbox instructions. -/
def buildPrompt (basePrompt timestampBlock feedbackBlock : String) (notes : List String)
    (taskSummary : Option String) (outboxInstructions : String) : String :=
  basePrompt ++ timestampBlock ++ feedbackBlock ++ formatSystemNotes notes ++
    (match taskSummary with
     | some t => t
     | none => "") ++ outboxInstructions

theorem toList_append (a b : String) : (a ++ b).toList = a.toList ++ b.toList := rfl

/-- The first character of an append is the first character of its
(non-empty) left part. -/
theorem head_toList_append (a b : String) (c : Char) (h : a.toList.head? = some c) :
    (a ++ b).toList.head? = some c := by
  show (a.toList ++ b.toList).head? = some c
  cases hl : a.toList with
  | nil => rw [hl] at h; exact absurd h (by simp)
  | cons x t => rw [hl] at h; simpa using h

/-- The last character of an append, seen through `reverse.head?`, is
the last character of its (non-empty) right part. -/
theorem last_toList_append (a lit : String) (d : Char)
    (hd : lit.toList.reverse.head? = some d) :
    (a ++ lit).toList.reverse.head? = some d := by
  show ((a.toList ++ lit.toList).reverse).head? = some d
  rw [List.reverse_append]
  cases hl : lit.toList.reverse with
  | nil => rw [hl] at hd; exact absurd hd (by simp)
  | cons x t => rw [hl] at hd; simpa using hd

/-- A string whose first and last characters are not whitespace is a
fixed point of `jsTrim`. -/
theorem jsTrim_eq_self (s : String) (c d : Char)
    (hc : s.toList.head? = some c) (hcw : c.isWhitespace = false)
    (hd : s.toList.reverse.head? = some d) (hdw : d.isWhitespace = false) :
    jsTrim s = s := by
  unfold OutboxCommon.jsTrim
  have h1 : s.toList.dropWhile Char.isWhitespace = s.toList := by
    cases hl : s.toList with
    | nil => simp
    | cons x t =>
        rw [hl] at hc
        simp only [List.head?] at hc
        injection hc with hc
        subst hc
        simp [List.dropWhile_cons, hcw]
  rw [h1]
  have h2 : s.toList.reverse.dropWhile Char.isWhitespace = s.toList.reverse := by
    cases hr : s.toList.reverse with
    | nil => simp
    | cons x t =>
        rw [hr] at hd
        simp only [List.head?] at hd
        injection hd with hd
        subst hd
        simp [List.dropWhile_cons, hdw]
  rw [h2, List.reverse_reverse]
  rfl

/-- Every form of the handoff note starts with `Ö` and ends with `.`. -/
theorem handoffNote_ends (messageLimit maxTotalChars maxCharsPerLine : Nat)
    (rows : List MsgRow) (fromO toO : String) :
    (buildHandoffNote messageLimit maxTotalChars maxCharsPerLine rows fromO toO).toList.head?
        = some 'Ö' ∧
    (buildHandoffNote messageLimit maxTotalChars maxCharsPerLine rows
        fromO toO).toList.reverse.head? = some '.' := by
  unfold buildHandoffNote
  split
  · constructor
    · repeat' apply head_toList_append
      rfl
    · apply last_toList_append
      rfl
  · split
    · constructor
      · repeat' apply head_toList_append
        rfl
      · apply last_toList_append
        rfl
    · constructor
      · repeat' apply head_toList_append
        rfl
      · apply last_toList_append
        rfl

/-- The note is non-empty and a fixed point of the trim applied by
`addSystemNote`. -/
theorem handoffNote_trim (messageLimit maxTotalChars maxCharsPerLine : Nat)
    (rows : List MsgRow) (fromO toO : String) :
    jsTrim (buildHandoffNote messageLimit maxTotalChars maxCharsPerLine rows fromO toO) =
      buildHandoffNote messageLimit maxTotalChars maxCharsPerLine rows fromO toO ∧
    buildHandoffNote messageLimit maxTotalChars maxCharsPerLine rows fromO toO ≠ "" := by
  obtain ⟨hh, hl⟩ := handoffNote_ends messageLimit maxTotalChars maxCharsPerLine rows fromO toO
  constructor
  · exact jsTrim_eq_self _ 'Ö' '.' hh (by decide) hl (by decide)
  · intro he
    rw [he] at hh
    exact absurd hh (by simp)

/-- The selection loop emits at most `messageLimit` lines. -/
theorem noteLoop_length (messageLimit maxTotalChars maxCharsPerLine : Nat) :
    ∀ (rows : List MsgRow) (total count : Nat), count < messageLimit →
    (noteLoop messageLimit maxTotalChars maxCharsPerLine rows total count).length ≤
      messageLimit - count := by
  intro rows
  induction rows with
  | nil =>
      intro total count _
      simp [noteLoop]
  | cons row rest ih =>
      intro total count hc
      simp only [noteLoop]
      cases hl : lineOf maxCharsPerLine row with
      | none => exact ih total count hc
      | some line =>
          by_cases hb : total + line.length + 1 > maxTotalChars
          · simp [hb]
          · by_cases hlim : count + 1 ≥ messageLimit
            · simp only [if_neg hb, if_pos hlim, List.length_singleton]
              omega
            · simp only [if_neg hb, if_neg hlim, List.length_cons]
              have := ih (total + line.length + 1) (count + 1) (by omega)
              omega

/-- The selection loop never exceeds the character budget: if it emitted
anything, the running total stays within `maxTotalChars`. -/
theorem noteLoop_total (messageLimit maxTotalChars maxCharsPerLine : Nat) :
    ∀ (rows : List MsgRow) (total count : Nat),
    noteLoop messageLimit maxTotalChars maxCharsPerLine rows total count ≠ [] →
    total + ((noteLoop messageLimit maxTotalChars maxCharsPerLine rows total count).map
      (fun l => l.length + 1)).sum ≤ maxTotalChars := by
  intro rows
  induction rows with
  | nil =>
      intro total count h
      exact absurd rfl h
  | cons row rest ih =>
      intro total count hne
      simp only [noteLoop] at hne ⊢
      cases hl : lineOf maxCharsPerLine row with
      | none =>
          rw [hl] at hne
          exact ih total count hne
      | some line =>
          rw [hl] at hne
          by_cases hb : total + line.length + 1 > maxTotalChars
          · simp [hb] at hne
          · by_cases hlim : count + 1 ≥ messageLimit
            · simp [hb, hlim]
              omega
            · by_cases hrec : noteLoop messageLimit maxTotalChars maxCharsPerLine rest
                  (total + line.length + 1) (count + 1) = []
              · simp [hb, hlim, hrec]
                omega
              · have hrec2 := ih (total + line.length + 1) (count + 1) hrec
                simp [hb, hlim] at hrec2 ⊢
                omega

/-- The emitted lines are a selection, in scan order, of the rendered
rows. -/
theorem noteLoop_sublist (messageLimit maxTotalChars maxCharsPerLine : Nat) :
    ∀ (rows : List MsgRow) (total count : Nat),
    List.Sublist (noteLoop messageLimit maxTotalChars maxCharsPerLine rows total count)
      (rows.filterMap (lineOf maxCharsPerLine)) := by
  intro rows
  induction rows with
  | nil =>
      intro total count
      simp [noteLoop]
  | cons row rest ih =>
      intro total count
      simp only [noteLoop, List.filterMap_cons]
      cases hl : lineOf maxCharsPerLine row with
      | none => exact ih total count
      | some line =>
          by_cases hb : total + line.length + 1 > maxTotalChars
          · simp [hb]
          · by_cases hlim : count + 1 ≥ messageLimit
            · simp only [if_neg hb, if_pos hlim]
              exact List.Sublist.cons₂ line (List.nil_sublist _)
            · simp only [if_neg hb, if_neg hlim]
              exact List.Sublist.cons₂ line (ih (total + line.length + 1) (count + 1))

theorem toList_empty : ("" : String).toList = [] := rfl

theorem sysHeader_split :
    ("\n\n[SISTEM MESAJLARI]\n- " : String).toList =
      ("\n\n[SISTEM MESAJLARI]\n" : String).toList ++ ("- " : String).toList := rfl

/-- `resetStoredState` on a valid, already-normalized orchestrator kind
deletes exactly that kind's entry. -/
theorem resetStoredState_spec (stores : String → Option String) (t : String)
    (ht : jsTrim (jsToLower t) = t)
    (hvalid : t = "claude" ∨ t = "codex" ∨ t = "gemini") :
    resetStoredState stores t t = none ∧
      ∀ k, k ≠ t → resetStoredState stores t k = stores k := by
  unfold resetStoredState
  rw [ht, if_pos hvalid]
  exact ⟨by simp, fun k hk => by simp [hk]⟩

/-- `addSystemNote` on an empty queue with a non-empty, trim-fixed text
yields exactly that text. -/
theorem addSystemNote_single (text : String) (ht : jsTrim text = text) (hne : text ≠ "") :
    addSystemNote [] text = [text] := by
  simp [addSystemNote, ht, hne]

set_option maxRecDepth 8192 in
/-- **C8 (counterexample).** The handoff note is not derived from the
user messages only: a history consisting solely of assistant
(`outgoing`) rows still yields a note line, rendered with the
`Asistan:` speaker prefix, and that line appears in the built note. -/
theorem c8_counterexample :
    (∀ row ∈ [({ message := "merhaba", direction := "outgoing" } : MsgRow)],
        row.direction ≠ "incoming") ∧
    noteLoop 100 15000 500 [{ message := "merhaba", direction := "outgoing" }] 200 0 =
      ["Asistan: merhaba"] ∧
    strIncludes
      (buildHandoffNote 100 15000 500 [{ message := "merhaba", direction := "outgoing" }]
        "claude" "codex") "Asistan: merhaba" = true := by
  refine ⟨by decide, by decide, ?_⟩
  decide

/-- **C8 (amended).** `performSwitch` with an empty pending-notes queue
and a valid normalized target kind: the live session flag is cleared;
the *target* kind's stored resume state is deleted and every other
kind's is untouched; the handoff note is queued as the (sole) pending
system note; the note is `buildHandoffNote` of the chat's recent rows
(both user and assistant turns, switch commands and switch confirmations
skipped); the selected lines number at most `messageLimit` and respect
the `maxTotalChars` budget (with the 200-character header reserve);
reversed into chronological order they are a selection of the rendered
rows in order; and every next prompt built from the queued notes
contains the note verbatim. -/
theorem c8_switch_handoff
    (messageLimit maxTotalChars maxCharsPerLine : Nat) (rows : List MsgRow)
    (fromO toO : String) (st : SwState)
    (hml : 1 ≤ messageLimit)
    (hto : toO = "claude" ∨ toO = "codex" ∨ toO = "gemini")
    (hnotes : st.systemNotes = []) :
    (performSwitch st messageLimit maxTotalChars maxCharsPerLine rows fromO toO).1.live
        = false ∧
    (performSwitch st messageLimit maxTotalChars maxCharsPerLine rows fromO toO).1.stores toO
        = none ∧
    (∀ k, k ≠ toO →
      (performSwitch st messageLimit maxTotalChars maxCharsPerLine rows fromO toO).1.stores k
        = st.stores k) ∧
    (performSwitch st messageLimit maxTotalChars maxCharsPerLine rows fromO toO).1.systemNotes
        = [(performSwitch st messageLimit maxTotalChars maxCharsPerLine rows fromO toO).2] ∧
    (performSwitch st messageLimit maxTotalChars maxCharsPerLine rows fromO toO).2
        = buildHandoffNote messageLimit maxTotalChars maxCharsPerLine rows fromO toO ∧
    (noteLoop messageLimit maxTotalChars maxCharsPerLine rows 200 0).length ≤ messageLimit ∧
    (noteLoop messageLimit maxTotalChars maxCharsPerLine rows 200 0 ≠ [] →
      200 + ((noteLoop messageLimit maxTotalChars maxCharsPerLine rows 200 0).map
        (fun l => l.length + 1)).sum ≤ maxTotalChars) ∧
    List.Sublist (noteLoop messageLimit maxTotalChars maxCharsPerLine rows 200 0).reverse
      ((rows.filterMap (lineOf maxCharsPerLine)).reverse) ∧
    (∀ basePrompt timestampBlock feedbackBlock outboxInstructions : String,
      List.IsInfix
        ((performSwitch st messageLimit maxTotalChars maxCharsPerLine rows fromO toO).2).toList
        (buildPrompt basePrompt timestampBlock feedbackBlock
          (performSwitch st messageLimit maxTotalChars maxCharsPerLine rows
            fromO toO).1.systemNotes
          none outboxInstructions).toList) := by
  have ht : jsTrim (jsToLower toO) = toO := by
    rcases hto with h | h | h <;> subst h <;> decide
  have hnote := handoffNote_trim messageLimit maxTotalChars maxCharsPerLine rows fromO toO
  have hreset := resetStoredState_spec st.stores toO ht hto
  have hps : performSwitch st messageLimit maxTotalChars maxCharsPerLine rows fromO toO =
      ({ live := false, stores := resetStoredState st.stores toO,
         systemNotes :=
           [buildHandoffNote messageLimit maxTotalChars maxCharsPerLine rows fromO toO] },
       buildHandoffNote messageLimit maxTotalChars maxCharsPerLine rows fromO toO) := by
    simp [performSwitch, hnotes, addSystemNote_single _ hnote.1 hnote.2]
  refine ⟨by rw [hps], by rw [hps]; exact hreset.1, ?_, by rw [hps], by rw [hps], ?_, ?_, ?_, ?_⟩
  · intro k hk
    rw [hps]
    exact hreset.2 k hk
  · have := noteLoop_length messageLimit maxTotalChars maxCharsPerLine rows 200 0
      (by omega)
    omega
  · exact noteLoop_total messageLimit maxTotalChars maxCharsPerLine rows 200 0
  · exact List.reverse_sublist.mpr
      (noteLoop_sublist messageLimit maxTotalChars maxCharsPerLine rows 200 0)
  · intro basePrompt timestampBlock feedbackBlock outboxInstructions
    rw [hps]
    refine ⟨(basePrompt ++ timestampBlock ++ feedbackBlock ++
        "\n\n[SISTEM MESAJLARI]\n- ").toList,
      ("\n[/SISTEM MESAJLARI]\n" ++ outboxInstructions).toList, ?_⟩
    simp [buildPrompt, formatSystemNotes, joinWithNl, toList_append, toList_empty,
      sysHeader_split, List.append_assoc]

/-- Witness for C8 at a concrete switch from claude to codex with one
logged user row: session ended, codex resume state cleared, and the
note queued as the sole pending system note. -/
theorem c8_witness :
    (performSwitch
        { live := true,
          stores := fun k => if k = "codex" then some "tok" else none,
          systemNotes := [] }
        100 15000 500 [{ message := "selam", direction := "incoming" }]
        "claude" "codex").1.live = false ∧
    (performSwitch
        { live := true,
          stores := fun k => if k = "codex" then some "tok" else none,
          systemNotes := [] }
        100 15000 500 [{ message := "selam", direction := "incoming" }]
        "claude" "codex").1.stores "codex" = none ∧
    (performSwitch
        { live := true,
          stores := fun k => if k = "codex" then some "tok" else none,
          systemNotes := [] }
        100 15000 500 [{ message := "selam", direction := "incoming" }]
        "claude" "codex").1.systemNotes =
      [(performSwitch
          { live := true,
            stores := fun k => if k = "codex" then some "tok" else none,
            systemNotes := [] }
          100 15000 500 [{ message := "selam", direction := "incoming" }]
          "claude" "codex").2] := by
  have h := c8_switch_handoff 100 15000 500
      [{ message := "selam", direction := "incoming" }] "claude" "codex"
      { live := true,
        stores := fun k => if k = "codex" then some "tok" else none,
        systemNotes := [] }
      (by decide) (Or.inr (Or.inl rfl)) rfl
  exact ⟨h.1, h.2.1, h.2.2.2.1⟩

end SwitchModel

end ConversaRelay

namespace ConversaRelay

open OutboxCommon

/-- **C10.** Outbox type normalization is total and never rejects: an
empty or missing type becomes `progress`; a value whose trimmed
lower-casing is in the valid set is kept; any other non-empty value is
coerced to `info`; the result is always a member of the valid set; and the
envelope produced by `normalizeOutboxMessage` (used both by
`writeOutboxMessage` and by the dispatcher's re-parse in `processFile`)
carries exactly `normalizeOutboxType payload.type`. -/
theorem c10_normalize_type_total (v : Option String) (payload : OutboxPayload)
    (options : NormalizeOptions) (env : OutboxEnvelope) :
    (normalizeOutboxType v ∈ VALID_TYPES) ∧
    (jsToLower (jsTrim (jsOrEmpty v)) = "" → normalizeOutboxType v = "progress") ∧
    (jsToLower (jsTrim (jsOrEmpty v)) ∈ VALID_TYPES →
      normalizeOutboxType v = jsToLower (jsTrim (jsOrEmpty v))) ∧
    (jsToLower (jsTrim (jsOrEmpty v)) ≠ "" → jsToLower (jsTrim (jsOrEmpty v)) ∉ VALID_TYPES →
      normalizeOutboxType v = "info") ∧
    (normalizeOutboxMessage payload options = .ok env →
      env.type = normalizeOutboxType payload.type) := by
  refine ⟨?_, ?_, ?_, ?_, ?_⟩
  · unfold normalizeOutboxType
    split
    · simp [VALID_TYPES]
    · split
      · assumption
      · simp [VALID_TYPES]
  · intro h
    simp [normalizeOutboxType, h]
  · intro h
    unfold normalizeOutboxType
    split
    · rename_i he
      rw [he] at h
      simp [VALID_TYPES] at h
    · simp [h]
  · intro hne hnm
    unfold normalizeOutboxType
    split
    · exact absurd (by assumption) hne
    · simp [hnm]
  · intro hok
    simp only [normalizeOutboxMessage] at hok
    repeat' split at hok
    all_goals first
      | (injection hok with h; subst h; rfl)
      | injection hok

/-- Witness for C10 at concrete inputs: an unknown non-empty type is
coerced to `info`, discharging the two hypotheses of the fourth conjunct. -/
theorem c10_witness :
    normalizeOutboxType (some " WeIrD-TyPe ") = "info" :=
  (c10_normalize_type_total (some " WeIrD-TyPe ")
    ⟨none, none, none, none, none, none, none, none, none, none, none⟩
    ⟨none, none, none⟩
    ⟨"x", none, "unknown", "progress", "t", none, none⟩).2.2.2.1
    (by decide) (by decide)

end ConversaRelay
